import Mathlib

/-!
# A verification model of the SimTK State realization engine

This file gives a shallow embedding of the staged state/cache realization
engine declared in `SimTKcommon/internal/State.h` (the `SimTK::State` class)
and proves properties of its public operations.  The repository ships only
the declaration header together with its behavioral documentation; the
`StateImpl` bodies are therefore reconstructed here from that documentation
and from the accompanying specification, as noted on each definition.
-/

set_option maxHeartbeats 1000000

set_option synthInstance.maxHeartbeats 400000

namespace SimTK

/-- Modelled from the spec: the `Stage` enumeration of `SimTKcommon`
(`Empty < Topology < Model < Instance < Time < Position < Velocity <
Dynamics < Acceleration < Report`, plus the `Infinity` sentinel above all
real stages).  Only the total order and successor/predecessor arithmetic
are required. -/
inductive Stage where
  | Empty
  | Topology
  | Model
  | Instance
  | Time
  | Position
  | Velocity
  | Dynamics
  | Acceleration
  | Report
  | Infinity
deriving DecidableEq, Repr, Fintype

namespace Stage

/-- Numeric level of a stage, inducing the total order. -/
def toNat : Stage → Nat
  | .Empty => 0
  | .Topology => 1
  | .Model => 2
  | .Instance => 3
  | .Time => 4
  | .Position => 5
  | .Velocity => 6
  | .Dynamics => 7
  | .Acceleration => 8
  | .Report => 9
  | .Infinity => 10

instance : LE Stage := ⟨fun a b => a.toNat ≤ b.toNat⟩

instance : LT Stage := ⟨fun a b => a.toNat < b.toNat⟩

instance (a b : Stage) : Decidable (a ≤ b) :=
  inferInstanceAs (Decidable (a.toNat ≤ b.toNat))

instance (a b : Stage) : Decidable (a < b) :=
  inferInstanceAs (Decidable (a.toNat < b.toNat))

/-- Modelled from the spec: `stage - 1` (the stage just prior); `Empty`
is the floor. -/
def prev : Stage → Stage
  | .Empty => .Empty
  | .Topology => .Empty
  | .Model => .Topology
  | .Instance => .Model
  | .Time => .Instance
  | .Position => .Time
  | .Velocity => .Position
  | .Dynamics => .Velocity
  | .Acceleration => .Dynamics
  | .Report => .Acceleration
  | .Infinity => .Report

/-- Modelled from the spec: `stage + 1` (the next stage); `Infinity` is
the ceiling. -/
def next : Stage → Stage
  | .Empty => .Topology
  | .Topology => .Model
  | .Model => .Instance
  | .Instance => .Time
  | .Time => .Position
  | .Position => .Velocity
  | .Velocity => .Dynamics
  | .Dynamics => .Acceleration
  | .Acceleration => .Report
  | .Report => .Infinity
  | .Infinity => .Infinity

/-- The smaller of two stages. -/
def minStage (a b : Stage) : Stage := if a ≤ b then a else b

theorem le_refl (a : Stage) : a ≤ a := Nat.le_refl a.toNat

theorem le_trans {a b c : Stage} (h₁ : a ≤ b) (h₂ : b ≤ c) : a ≤ c :=
  Nat.le_trans h₁ h₂

theorem le_next (a : Stage) : a ≤ a.next := by cases a <;> decide

theorem le_prev_of_lt {a b : Stage} (h : a < b) : a ≤ b.prev := by
  revert h; revert a b; decide

theorem prev_le (a : Stage) : a.prev ≤ a := by cases a <;> decide

theorem backup_eq_minStage (a g : Stage) :
    (if g ≤ a then g.prev else a) = minStage a g.prev := by
  revert a g; decide

theorem empty_le (a : Stage) : Stage.Empty ≤ a := by cases a <;> decide

theorem lt_model_iff (a : Stage) :
    a < Stage.Model ↔ a = Stage.Empty ∨ a = Stage.Topology := by
  cases a <;> decide

theorem lt_instance_iff (a : Stage) :
    a < Stage.Instance ↔
      a = Stage.Empty ∨ a = Stage.Topology ∨ a = Stage.Model := by
  cases a <;> decide

end Stage

/-- Error kinds surfaced by the public `State` operations.  Modelled from
the spec: `IndexOutOfRange` for bad Subsystem/local indices,
`StageViolation` for allocate-after-locked / access-before-realized /
illegal advances, `NotAutoUpdate` for auto-update-only accessors applied
to a plain discrete variable. -/
inductive Err where
  | indexOutOfRange
  | stageViolation
  | notAutoUpdate
deriving DecidableEq, Repr

/-- Values stored in discrete variables and cache entries (the `AbstractValue`
payload); the engine never inspects them, so an integer payload suffices. -/
abbrev AV := Int

/-- Modelled from the spec: one continuous-variable allocation made by
`allocateQ`/`allocateU`/`allocateZ` — the subsystem stage at which it was
allocated and the allocation-time initial values for its block. -/
structure ContBlock where
  allocationStage : Stage
  inits : List AV
deriving DecidableEq, Repr

/-- Modelled from the spec: a `DiscreteVariable` record — the stage at
allocation, the stage invalidated on write, the payload, the time of last
update, and the local index of the associated auto-update cache entry,
when any. -/
structure DiscreteVar where
  allocationStage : Stage
  invalidates : Stage
  value : AV
  lastUpdateTime : Int
  autoUpdate : Option Nat
deriving DecidableEq, Repr

/-- Modelled from the spec: a `CacheEntry` record — the stage at
allocation, the `earliest` stage below which it is provably invalid, the
`latest` stage (possibly `Infinity`) at or above which it is presumed
valid, the payload, and the explicit validity flag set by
`markCacheValueRealized`. -/
structure CacheEntry where
  allocationStage : Stage
  earliest : Stage
  latest : Stage
  value : AV
  valid : Bool
deriving DecidableEq, Repr

/-- Modelled from the spec: whether a cache entry may be read — either the
explicit validity flag is set, or `latest` is finite and the owning
subsystem's stage has reached it (lazy entries with `latest = Infinity`
are never presumed valid by stage advancement). -/
def CacheEntry.isRealized (ce : CacheEntry) (subsysStage : Stage) : Bool :=
  ce.valid || (decide (ce.latest ≠ Stage.Infinity) && decide (ce.latest ≤ subsysStage))

/-- Modelled from the spec: the per-subsystem partition of the `State` —
name/version strings, the current realization stage, the continuous
variable registrations, the assigned global offsets of its q/u/z blocks,
and its private discrete-variable and cache-entry stores. -/
structure Subsystem where
  name : String
  version : String
  stage : Stage
  qInfo : List ContBlock
  uInfo : List ContBlock
  zInfo : List ContBlock
  qstart : Nat
  ustart : Nat
  zstart : Nat
  discrete : List DiscreteVar
  cache : List CacheEntry
deriving DecidableEq, Repr

namespace Subsystem

/-- A freshly registered subsystem, at `Empty` stage with no resources. -/
def fresh (nm ver : String) : Subsystem :=
  { name := nm, version := ver, stage := Stage.Empty
    qInfo := [], uInfo := [], zInfo := []
    qstart := 0, ustart := 0, zstart := 0
    discrete := [], cache := [] }

/-- Number of q's registered by this subsystem. -/
def nq (ss : Subsystem) : Nat := (ss.qInfo.map (fun b => b.inits.length)).sum

/-- Number of u's registered by this subsystem. -/
def nu (ss : Subsystem) : Nat := (ss.uInfo.map (fun b => b.inits.length)).sum

/-- Number of z's registered by this subsystem. -/
def nz (ss : Subsystem) : Nat := (ss.zInfo.map (fun b => b.inits.length)).sum

/-- The allocation-time initial values of this subsystem's q block. -/
def qInitVals (ss : Subsystem) : List AV := (ss.qInfo.map (fun b => b.inits)).flatten

/-- The allocation-time initial values of this subsystem's u block. -/
def uInitVals (ss : Subsystem) : List AV := (ss.uInfo.map (fun b => b.inits)).flatten

/-- The allocation-time initial values of this subsystem's z block. -/
def zInitVals (ss : Subsystem) : List AV := (ss.zInfo.map (fun b => b.inits)).flatten

end Subsystem

/-- A list update at one position; out-of-range indices leave the list
unchanged. -/
def updateAt : List α → Nat → (α → α) → List α
  | [], _, _ => []
  | a :: l, 0, f => f a :: l
  | a :: l, n + 1, f => a :: updateAt l n f

theorem updateAt_getElem? (l : List α) (n : Nat) (f : α → α) (m : Nat) :
    (updateAt l n f)[m]? =
      if m = n then (l[n]?).map f else l[m]? := by
  induction l generalizing n m with
  | nil => simp [updateAt]
  | cons a l ih =>
    cases n with
    | zero =>
      cases m with
      | zero => simp [updateAt]
      | succ m => simp [updateAt]
    | succ n =>
      cases m with
      | zero => simp [updateAt]
      | succ m => simpa [updateAt, Nat.succ_eq_add_one] using ih n m

theorem mem_updateAt {b : α} {l : List α} {n : Nat} {f : α → α}
    (h : b ∈ updateAt l n f) : b ∈ l ∨ ∃ a ∈ l, b = f a := by
  revert h
  induction l generalizing n with
  | nil => intro h; simp [updateAt] at h
  | cons a l ih =>
    cases n with
    | zero =>
      intro h
      rcases List.mem_cons.mp h with rfl | h
      · exact Or.inr ⟨a, List.mem_cons_self a l, rfl⟩
      · exact Or.inl (List.mem_cons_of_mem a h)
    | succ n =>
      intro h
      rcases List.mem_cons.mp h with rfl | h
      · exact Or.inl (List.mem_cons_self _ l)
      · rcases ih h with h' | ⟨c, hc, rfl⟩
        · exact Or.inl (List.mem_cons_of_mem a h')
        · exact Or.inr ⟨c, List.mem_cons_of_mem a hc, rfl⟩

theorem updateAt_length (l : List α) (n : Nat) (f : α → α) :
    (updateAt l n f).length = l.length := by
  induction l generalizing n with
  | nil => rfl
  | cons a l ih =>
    cases n with
    | zero => simp [updateAt]
    | succ n => simp [updateAt, ih]

/-- Modelled from the spec: the `SimTK::State` aggregate — current time,
the global (System-level) realization stage, the ordered list of
subsystems, the global continuous vector `y = {all q}{all u}{all z}`
materialized when the System advances to `Model`, and the recorded global
dimensions `nq`, `nu`, `nz`. -/
structure State where
  t : Int
  currentSystemStage : Stage
  subsystems : List Subsystem
  y : List AV
  nq : Nat
  nu : Nat
  nz : Nat
deriving DecidableEq, Repr

namespace State

/-- Modelled from the spec: the default-constructed `State()` — no
subsystems, stage `Empty`, no global resources. -/
def init : State :=
  { t := 0, currentSystemStage := Stage.Empty, subsystems := []
    y := [], nq := 0, nu := 0, nz := 0 }

/-- The global q's: a view of the leading `nq` slots of `y`. -/
def qView (s : State) : List AV := List.take s.nq s.y

/-- The global u's: a view of the `nu` slots of `y` after the q's. -/
def uView (s : State) : List AV := List.take s.nu (List.drop s.nq s.y)

/-- The global z's: a view of the trailing `nz` slots of `y`. -/
def zView (s : State) : List AV := List.take s.nz (List.drop (s.nq + s.nu) s.y)

/-- `getNumSubsystems`. -/
def getNumSubsystems (s : State) : Nat := s.subsystems.length

/-- `getSystemStage`: the global stage for this `State`. -/
def getSystemStage (s : State) : Stage := s.currentSystemStage

/-- `getSubsystemStage`. -/
def getSubsystemStage (s : State) (i : Nat) : Except Err Stage :=
  match s.subsystems[i]? with
  | none => .error .indexOutOfRange
  | some ss => .ok ss.stage

end State

/-- Modelled from the spec: the per-subsystem half of the invalidation
engine.  If the subsystem's stage is at or above `g` it is backed up to
the stage just prior to `g`; resources whose recorded allocation stage is
reached or passed by the backup are forgotten, and the explicit validity
flag of every surviving cache entry whose `earliest` stage is above the
new stage is cleared.  A subsystem already below `g` is untouched. -/
def Subsystem.invalidateTo (ss : Subsystem) (g : Stage) : Subsystem :=
  if g ≤ ss.stage then
    { ss with
      stage := g.prev
      qInfo := ss.qInfo.filter (fun b => decide (b.allocationStage < g.prev))
      uInfo := ss.uInfo.filter (fun b => decide (b.allocationStage < g.prev))
      zInfo := ss.zInfo.filter (fun b => decide (b.allocationStage < g.prev))
      discrete := ss.discrete.filter (fun d => decide (d.allocationStage < g.prev))
      cache := (ss.cache.filter (fun c => decide (c.allocationStage < g.prev))).map
        (fun c => if c.earliest ≤ g.prev then c else { c with valid := false }) }
  else ss

namespace State

/-- Modelled from the spec: `invalidateAll(Stage)` — back every subsystem
and the global stage down to the stage just prior to the argument (a
no-op for stages already below it); global continuous resources are
tossed out when the global stage falls below `Model`. -/
def invalidateAll (s : State) (g : Stage) : State :=
  let subs := s.subsystems.map (fun ss => ss.invalidateTo g)
  let sysStage := if g ≤ s.currentSystemStage then g.prev else s.currentSystemStage
  if sysStage < Stage.Model then
    { s with subsystems := subs, currentSystemStage := sysStage
             y := [], nq := 0, nu := 0, nz := 0 }
  else
    { s with subsystems := subs, currentSystemStage := sysStage }

/-- Modelled from the spec: the const invalidation method
`invalidateAllCacheAtOrAbove(Stage)` — same backing-up behavior as
`invalidateAll`, but usable only to invalidate `Stage::Instance` or
higher, because invalidating `Model` or `Topology` can destroy state
variables and therefore needs write access to the `State`. -/
def invalidateAllCacheAtOrAbove (s : State) (g : Stage) : Except Err State :=
  if Stage.Instance ≤ g then .ok (s.invalidateAll g) else .error .stageViolation

/-- Apply a fallible update to subsystem `i`. -/
def withSub (s : State) (i : Nat) (f : Subsystem → Except Err Subsystem) :
    Except Err State :=
  match s.subsystems[i]? with
  | none => .error .indexOutOfRange
  | some ss =>
    match f ss with
    | .error e => .error e
    | .ok ss' => .ok { s with subsystems := updateAt s.subsystems i (fun _ => ss') }

/-- Modelled from the spec: `addSubsystem(name, version)` — registers a
new subsystem at `Empty` stage; fails once the `State` has advanced past
`Empty`. -/
def addSubsystem (s : State) (nm ver : String) : Except Err State :=
  if s.currentSystemStage = Stage.Empty then
    .ok { s with subsystems := s.subsystems ++ [Subsystem.fresh nm ver] }
  else .error .stageViolation

/-- Modelled from the spec: `advanceSubsystemToStage(SubsystemIndex,
Stage)` — advances that subsystem's stage by exactly one, to the
indicated stage; any other target (including `Infinity`) is rejected. -/
def advanceSubsystemToStage (s : State) (i : Nat) (g : Stage) :
    Except Err State :=
  s.withSub i (fun ss =>
    if g = Stage.next ss.stage ∧ ¬g = Stage.Infinity then
      .ok { ss with stage := g }
    else .error .stageViolation)

/-- Modelled from the spec: the one-time pass run when the System advances
to `Model` — assign each subsystem its contiguous global offsets for q,
then u, then z, in subsystem order. -/
def assignOffsets : Nat → Nat → Nat → List Subsystem → List Subsystem
  | _, _, _, [] => []
  | qo, uo, zo, ss :: rest =>
    { ss with qstart := qo, ustart := uo, zstart := zo } ::
      assignOffsets (qo + ss.nq) (uo + ss.nu) (zo + ss.nz) rest

/-- Modelled from the spec: materialization of the global continuous
resources at `Model` stage — the global `y` is all q's, then all u's,
then all z's, each section the concatenation of the subsystems' blocks in
subsystem order, built from the allocation-time initial values. -/
def realizeModelPass (s : State) : State :=
  { s with subsystems := assignOffsets 0 0 0 s.subsystems
           y := (s.subsystems.map Subsystem.qInitVals).flatten ++
             ((s.subsystems.map Subsystem.uInitVals).flatten ++
              (s.subsystems.map Subsystem.zInitVals).flatten)
           nq := (s.subsystems.map Subsystem.qInitVals).flatten.length
           nu := (s.subsystems.map Subsystem.uInitVals).flatten.length
           nz := (s.subsystems.map Subsystem.zInitVals).flatten.length }

/-- Modelled from the spec: `advanceSystemToStage(Stage)` — advances the
global stage by exactly one, and only when every subsystem has already
been advanced at least to the target stage; advancing to `Model` runs the
global allocation pass. -/
def advanceSystemToStage (s : State) (g : Stage) : Except Err State :=
  if g = Stage.next s.currentSystemStage ∧ ¬g = Stage.Infinity ∧
      s.subsystems.all (fun ss => decide (g ≤ ss.stage)) then
    .ok (if g = Stage.Model
          then realizeModelPass { s with currentSystemStage := g }
          else { s with currentSystemStage := g })
  else .error .stageViolation

end State

namespace State

/-- Modelled from the spec: `allocateQ(SubsystemIndex, qInit)` — registers
a block of q's with its initial values; callable only while that
subsystem is below `Model` stage.  The returned local index is the count
of q's registered before the call. -/
def allocateQ (s : State) (i : Nat) (qInit : List AV) : Except Err State :=
  s.withSub i (fun ss =>
    if ss.stage < Stage.Model then
      .ok { ss with qInfo := ss.qInfo ++ [{ allocationStage := ss.stage, inits := qInit }] }
    else .error .stageViolation)

/-- Modelled from the spec: `allocateU(SubsystemIndex, uInit)`; see
`allocateQ`. -/
def allocateU (s : State) (i : Nat) (uInit : List AV) : Except Err State :=
  s.withSub i (fun ss =>
    if ss.stage < Stage.Model then
      .ok { ss with uInfo := ss.uInfo ++ [{ allocationStage := ss.stage, inits := uInit }] }
    else .error .stageViolation)

/-- Modelled from the spec: `allocateZ(SubsystemIndex, zInit)`; see
`allocateQ`. -/
def allocateZ (s : State) (i : Nat) (zInit : List AV) : Except Err State :=
  s.withSub i (fun ss =>
    if ss.stage < Stage.Model then
      .ok { ss with zInfo := ss.zInfo ++ [{ allocationStage := ss.stage, inits := zInit }] }
    else .error .stageViolation)

/-- Modelled from the spec: `allocateDiscreteVariable(SubsystemIndex,
invalidates, value)` — legal only while the subsystem is at `Empty` or
`Topology` stage (below `Model`); records the allocation stage for later
rollback.  The returned local index is the count of discrete variables
allocated before the call. -/
def allocateDiscreteVariable (s : State) (i : Nat) (inv : Stage) (v : AV) :
    Except Err State :=
  s.withSub i (fun ss =>
    if ss.stage < Stage.Model then
      .ok { ss with discrete := ss.discrete ++
        [{ allocationStage := ss.stage, invalidates := inv, value := v
           lastUpdateTime := s.t, autoUpdate := none }] }
    else .error .stageViolation)

/-- Modelled from the spec: `allocateAutoUpdateDiscreteVariable(
SubsystemIndex, invalidates, value, updateDependsOn)` — like
`allocateDiscreteVariable` but `invalidates` must be above `Time`, and a
lazy cache entry (`earliest = updateDependsOn`, `latest = Infinity`) of
the same value is allocated to hold the pending update value. -/
def allocateAutoUpdateDiscreteVariable (s : State) (i : Nat) (inv : Stage)
    (v : AV) (updateDependsOn : Stage) : Except Err State :=
  s.withSub i (fun ss =>
    if ss.stage < Stage.Model ∧ Stage.Time < inv then
      .ok { ss with
        discrete := ss.discrete ++
          [{ allocationStage := ss.stage, invalidates := inv, value := v
             lastUpdateTime := s.t, autoUpdate := some ss.cache.length }]
        cache := ss.cache ++
          [{ allocationStage := ss.stage, earliest := updateDependsOn
             latest := Stage.Infinity, value := v, valid := false }] }
    else .error .stageViolation)

/-- Modelled from the spec: `allocateCacheEntry(SubsystemIndex, earliest,
latest, value)` — legal while the subsystem is below `Instance` stage
(i.e. at `Empty`, `Topology`, or `Model`); the entry starts out not
explicitly marked valid. -/
def allocateCacheEntry (s : State) (i : Nat) (earliest latest : Stage)
    (v : AV) : Except Err State :=
  s.withSub i (fun ss =>
    if ss.stage < Stage.Instance then
      .ok { ss with cache := ss.cache ++
        [{ allocationStage := ss.stage, earliest := earliest, latest := latest
           value := v, valid := false }] }
    else .error .stageViolation)

/-- Modelled from the spec: `allocateLazyCacheEntry` is the abbreviation
`allocateCacheEntry` with `latest = Infinity`. -/
def allocateLazyCacheEntry (s : State) (i : Nat) (earliest : Stage) (v : AV) :
    Except Err State :=
  s.allocateCacheEntry i earliest Stage.Infinity v

/-- `getDiscreteVariable`: the current value; requires only that the
variable has been allocated. -/
def getDiscreteVariable (s : State) (i dvi : Nat) : Except Err AV :=
  match s.subsystems[i]? with
  | none => .error .indexOutOfRange
  | some ss =>
    match ss.discrete[dvi]? with
    | none => .error .indexOutOfRange
    | some dv => .ok dv.value

/-- `getDiscreteVarLastUpdateTime`. -/
def getDiscreteVarLastUpdateTime (s : State) (i dvi : Nat) : Except Err Int :=
  match s.subsystems[i]? with
  | none => .error .indexOutOfRange
  | some ss =>
    match ss.discrete[dvi]? with
    | none => .error .indexOutOfRange
    | some dv => .ok dv.lastUpdateTime

/-- `getDiscreteVarAllocationStage`. -/
def getDiscreteVarAllocationStage (s : State) (i dvi : Nat) :
    Except Err Stage :=
  match s.subsystems[i]? with
  | none => .error .indexOutOfRange
  | some ss =>
    match ss.discrete[dvi]? with
    | none => .error .indexOutOfRange
    | some dv => .ok dv.allocationStage

/-- `getDiscreteVarInvalidatesStage`. -/
def getDiscreteVarInvalidatesStage (s : State) (i dvi : Nat) :
    Except Err Stage :=
  match s.subsystems[i]? with
  | none => .error .indexOutOfRange
  | some ss =>
    match ss.discrete[dvi]? with
    | none => .error .indexOutOfRange
    | some dv => .ok dv.invalidates

/-- `getDiscreteVarUpdateIndex`: the local index of the associated update
cache entry, or `none` for a plain discrete variable. -/
def getDiscreteVarUpdateIndex (s : State) (i dvi : Nat) :
    Except Err (Option Nat) :=
  match s.subsystems[i]? with
  | none => .error .indexOutOfRange
  | some ss =>
    match ss.discrete[dvi]? with
    | none => .error .indexOutOfRange
    | some dv => .ok dv.autoUpdate

/-- Modelled from the spec: `updDiscreteVariable(SubsystemIndex, index)`
followed by the write through the returned reference — invalidates stage
`dv.invalidates` (backing the subsystem and global stages to the stage
just prior), records the current time as the variable's last update
time, and stores the new value. -/
def updDiscreteVariable (s : State) (i dvi : Nat) (v : AV) :
    Except Err State :=
  match s.subsystems[i]? with
  | none => .error .indexOutOfRange
  | some ss =>
    match ss.discrete[dvi]? with
    | none => .error .indexOutOfRange
    | some dv =>
      let s₁ := s.invalidateAll dv.invalidates
      .ok { s₁ with subsystems := updateAt s₁.subsystems i (fun ss₁ =>
        { ss₁ with discrete := updateAt ss₁.discrete dvi (fun d =>
          { d with value := v, lastUpdateTime := s.t }) }) }

/-- Modelled from the spec: `setDiscreteVariable` is the alternate
interface to `updDiscreteVariable`. -/
def setDiscreteVariable (s : State) (i dvi : Nat) (v : AV) :
    Except Err State :=
  s.updDiscreteVariable i dvi v

end State

/-- Map with the element's position, starting from a given offset. -/
def mapWithIdx (f : Nat → α → β) : Nat → List α → List β
  | _, [] => []
  | n, a :: l => f n a :: mapWithIdx f (n + 1) l

theorem mapWithIdx_getElem? (f : Nat → α → β) (n : Nat) (l : List α) (i : Nat) :
    (mapWithIdx f n l)[i]? = (l[i]?).map (f (n + i)) := by
  induction l generalizing n i with
  | nil => simp [mapWithIdx]
  | cons a l ih =>
    cases i with
    | zero => simp [mapWithIdx]
    | succ i =>
      have hn : n + 1 + i = n + (i + 1) := by omega
      simp only [mapWithIdx, List.getElem?_cons_succ]
      rw [ih (n + 1) i, hn]

namespace State

/-- `getCacheEntryAllocationStage`. -/
def getCacheEntryAllocationStage (s : State) (i cx : Nat) :
    Except Err Stage :=
  match s.subsystems[i]? with
  | none => .error .indexOutOfRange
  | some ss =>
    match ss.cache[cx]? with
    | none => .error .indexOutOfRange
    | some ce => .ok ce.allocationStage

/-- Modelled from the spec: `isCacheValueRealized(SubsystemIndex,
CacheEntryIndex)` — true when the explicit validity flag is set or the
entry's finite `latest` stage has been reached by the owning subsystem. -/
def isCacheValueRealized (s : State) (i cx : Nat) : Except Err Bool :=
  match s.subsystems[i]? with
  | none => .error .indexOutOfRange
  | some ss =>
    match ss.cache[cx]? with
    | none => .error .indexOutOfRange
    | some ce => .ok (ce.isRealized ss.stage)

/-- Modelled from the spec: `getCacheEntry(SubsystemIndex,
CacheEntryIndex)` — returns the value only when the entry is realized in
the sense of `isCacheValueRealized`; otherwise throws. -/
def getCacheEntry (s : State) (i cx : Nat) : Except Err AV :=
  match s.subsystems[i]? with
  | none => .error .indexOutOfRange
  | some ss =>
    match ss.cache[cx]? with
    | none => .error .indexOutOfRange
    | some ce =>
      if ce.isRealized ss.stage then .ok ce.value else .error .stageViolation

/-- Modelled from the spec: `updCacheEntry(SubsystemIndex,
CacheEntryIndex)` followed by the write through the returned mutable
reference — allowed any time after stage `earliest - 1`; neither the
current stage nor the validity flag is changed. -/
def updCacheEntry (s : State) (i cx : Nat) (v : AV) : Except Err State :=
  s.withSub i (fun ss =>
    match ss.cache[cx]? with
    | none => .error .indexOutOfRange
    | some ce =>
      if Stage.prev ce.earliest ≤ ss.stage then
        .ok { ss with cache := updateAt ss.cache cx (fun c => { c with value := v }) }
      else .error .stageViolation)

/-- Modelled from the spec: `markCacheValueRealized(SubsystemIndex,
CacheEntryIndex)` — sets the explicit validity flag; the subsystem's
stage must be at least the entry's `earliest` stage. -/
def markCacheValueRealized (s : State) (i cx : Nat) : Except Err State :=
  s.withSub i (fun ss =>
    match ss.cache[cx]? with
    | none => .error .indexOutOfRange
    | some ce =>
      if ce.earliest ≤ ss.stage then
        .ok { ss with cache := updateAt ss.cache cx (fun c => { c with valid := true }) }
      else .error .stageViolation)

/-- Modelled from the spec: `markCacheValueNotRealized(SubsystemIndex,
CacheEntryIndex)` — manually clears the explicit validity flag. -/
def markCacheValueNotRealized (s : State) (i cx : Nat) : Except Err State :=
  s.withSub i (fun ss =>
    match ss.cache[cx]? with
    | none => .error .indexOutOfRange
    | some _ =>
      .ok { ss with cache := updateAt ss.cache cx (fun c => { c with valid := false }) })

/-- `isDiscreteVarUpdateValueRealized`: whether the associated update
cache entry of an auto-update discrete variable is realized. -/
def isDiscreteVarUpdateValueRealized (s : State) (i dvi : Nat) :
    Except Err Bool :=
  match s.subsystems[i]? with
  | none => .error .indexOutOfRange
  | some ss =>
    match ss.discrete[dvi]? with
    | none => .error .indexOutOfRange
    | some dv =>
      match dv.autoUpdate with
      | none => .error .notAutoUpdate
      | some cx => s.isCacheValueRealized i cx

/-- `markDiscreteVarUpdateValueRealized`: marks the associated update
cache entry of an auto-update discrete variable as realized. -/
def markDiscreteVarUpdateValueRealized (s : State) (i dvi : Nat) :
    Except Err State :=
  match s.subsystems[i]? with
  | none => .error .indexOutOfRange
  | some ss =>
    match ss.discrete[dvi]? with
    | none => .error .indexOutOfRange
    | some dv =>
      match dv.autoUpdate with
      | none => .error .notAutoUpdate
      | some cx => s.markCacheValueRealized i cx

/-- `getDiscreteVarUpdateValue`: the value the discrete variable will
have after the next update; fails when the update value is not realized
or the variable is not auto-update. -/
def getDiscreteVarUpdateValue (s : State) (i dvi : Nat) : Except Err AV :=
  match s.subsystems[i]? with
  | none => .error .indexOutOfRange
  | some ss =>
    match ss.discrete[dvi]? with
    | none => .error .indexOutOfRange
    | some dv =>
      match dv.autoUpdate with
      | none => .error .notAutoUpdate
      | some cx => s.getCacheEntry i cx

/-- `updDiscreteVarUpdateValue` followed by the write through the
returned reference: writes the associated update cache entry. -/
def updDiscreteVarUpdateValue (s : State) (i dvi : Nat) (v : AV) :
    Except Err State :=
  match s.subsystems[i]? with
  | none => .error .indexOutOfRange
  | some ss =>
    match ss.discrete[dvi]? with
    | none => .error .indexOutOfRange
    | some dv =>
      match dv.autoUpdate with
      | none => .error .notAutoUpdate
      | some cx => s.updCacheEntry i cx v

end State

/-- Modelled from the spec: the per-subsystem half of
`autoUpdateDiscreteVariables()` — in one pass, every auto-update discrete
variable whose associated cache entry is currently marked valid swaps its
value with the cache value and the cache entry is marked invalid; the
swap reads only the pre-pass values, so no variable's new value can
influence another update in the same pass. -/
def Subsystem.autoUpdate (ss : Subsystem) : Subsystem :=
  { ss with
    discrete := ss.discrete.map (fun dv =>
      match dv.autoUpdate with
      | none => dv
      | some cx =>
        match ss.cache[cx]? with
        | none => dv
        | some ce => if ce.valid then { dv with value := ce.value } else dv)
    cache := mapWithIdx (fun cx ce =>
      if ce.valid then
        match ss.discrete.find? (fun dv => decide (dv.autoUpdate = some cx)) with
        | none => ce
        | some dv => { ce with value := dv.value, valid := false }
      else ce) 0 ss.cache }

namespace State

/-- Modelled from the spec: `autoUpdateDiscreteVariables()` — run the
swap pass over every subsystem; no stage is invalidated by the swaps. -/
def autoUpdateDiscreteVariables (s : State) : State :=
  { s with subsystems := s.subsystems.map Subsystem.autoUpdate }

end State

namespace State

/-- `getTime`: callable as long as the System stage is at least `Model`. -/
def getTime (s : State) : Except Err Int :=
  if Stage.Model ≤ s.currentSystemStage then .ok s.t else .error .stageViolation

/-- `getY`: the packed global `{q,u,z}` vector; System stage must be at
least `Model`. -/
def getY (s : State) : Except Err (List AV) :=
  if Stage.Model ≤ s.currentSystemStage then .ok s.y else .error .stageViolation

/-- `getQ()`: the global q view into y; System stage must be at least
`Model`. -/
def getQ (s : State) : Except Err (List AV) :=
  if Stage.Model ≤ s.currentSystemStage then .ok s.qView else .error .stageViolation

/-- `getU()`: the global u view into y. -/
def getU (s : State) : Except Err (List AV) :=
  if Stage.Model ≤ s.currentSystemStage then .ok s.uView else .error .stageViolation

/-- `getZ()`: the global z view into y. -/
def getZ (s : State) : Except Err (List AV) :=
  if Stage.Model ≤ s.currentSystemStage then .ok s.zView else .error .stageViolation

/-- `getNY()`: `ny = nq + nu + nz`; callable at `Model` stage. -/
def getNY (s : State) : Except Err Nat :=
  if Stage.Model ≤ s.currentSystemStage then .ok (s.nq + s.nu + s.nz)
  else .error .stageViolation

/-- `getNQ()`: total number of shared q's; callable at `Model` stage. -/
def getNQ (s : State) : Except Err Nat :=
  if Stage.Model ≤ s.currentSystemStage then .ok s.nq else .error .stageViolation

/-- `getNU()`. -/
def getNU (s : State) : Except Err Nat :=
  if Stage.Model ≤ s.currentSystemStage then .ok s.nu else .error .stageViolation

/-- `getNZ()`. -/
def getNZ (s : State) : Except Err Nat :=
  if Stage.Model ≤ s.currentSystemStage then .ok s.nz else .error .stageViolation

/-- `getQStart(SubsystemIndex)` (the per-subsystem overload): the global
q index at which this subsystem's contiguous q block begins; callable at
`Model` stage. -/
def getQStartSub (s : State) (i : Nat) : Except Err Nat :=
  if Stage.Model ≤ s.currentSystemStage then
    match s.subsystems[i]? with
    | none => .error .indexOutOfRange
    | some ss => .ok ss.qstart
  else .error .stageViolation

/-- `getUStart(SubsystemIndex)` (the per-subsystem overload). -/
def getUStartSub (s : State) (i : Nat) : Except Err Nat :=
  if Stage.Model ≤ s.currentSystemStage then
    match s.subsystems[i]? with
    | none => .error .indexOutOfRange
    | some ss => .ok ss.ustart
  else .error .stageViolation

/-- `getNQ(SubsystemIndex)` (the per-subsystem overload). -/
def getNQSub (s : State) (i : Nat) : Except Err Nat :=
  if Stage.Model ≤ s.currentSystemStage then
    match s.subsystems[i]? with
    | none => .error .indexOutOfRange
    | some ss => .ok ss.nq
  else .error .stageViolation

/-- `getNU(SubsystemIndex)` (the per-subsystem overload). -/
def getNUSub (s : State) (i : Nat) : Except Err Nat :=
  if Stage.Model ≤ s.currentSystemStage then
    match s.subsystems[i]? with
    | none => .error .indexOutOfRange
    | some ss => .ok ss.nu
  else .error .stageViolation

/-- `getQ(SubsystemIndex)` (the per-subsystem overload): that
subsystem's contiguous block of the global q array. -/
def getQSub (s : State) (i : Nat) : Except Err (List AV) :=
  if Stage.Model ≤ s.currentSystemStage then
    match s.subsystems[i]? with
    | none => .error .indexOutOfRange
    | some ss => .ok (List.take ss.nq (List.drop ss.qstart s.qView))
  else .error .stageViolation

/-- `getU(SubsystemIndex)` (the per-subsystem overload). -/
def getUSub (s : State) (i : Nat) : Except Err (List AV) :=
  if Stage.Model ≤ s.currentSystemStage then
    match s.subsystems[i]? with
    | none => .error .indexOutOfRange
    | some ss => .ok (List.take ss.nu (List.drop ss.ustart s.uView))
  else .error .stageViolation

/-- `getZ(SubsystemIndex)` (the per-subsystem overload). -/
def getZSub (s : State) (i : Nat) : Except Err (List AV) :=
  if Stage.Model ≤ s.currentSystemStage then
    match s.subsystems[i]? with
    | none => .error .indexOutOfRange
    | some ss => .ok (List.take ss.nz (List.drop ss.zstart s.zView))
  else .error .stageViolation

/-- Modelled from the spec: `updTime()` — callable as long as the System
stage is at least `Model`; backs the stage up to `Time - 1`. -/
def updTime (s : State) : Except Err State :=
  if Stage.Model ≤ s.currentSystemStage then .ok (s.invalidateAll Stage.Time)
  else .error .stageViolation

/-- Modelled from the spec: `updQ()` — backs the stage up to
`Position - 1`. -/
def updQ (s : State) : Except Err State :=
  if Stage.Model ≤ s.currentSystemStage then .ok (s.invalidateAll Stage.Position)
  else .error .stageViolation

/-- Modelled from the spec: `updU()` — backs the stage up to
`Velocity - 1`. -/
def updU (s : State) : Except Err State :=
  if Stage.Model ≤ s.currentSystemStage then .ok (s.invalidateAll Stage.Velocity)
  else .error .stageViolation

/-- Modelled from the spec: `updZ()` — backs the stage up to
`Dynamics - 1`. -/
def updZ (s : State) : Except Err State :=
  if Stage.Model ≤ s.currentSystemStage then .ok (s.invalidateAll Stage.Dynamics)
  else .error .stageViolation

/-- Modelled from the spec: `updY()` — backs the stage up to
`Dynamics - 1`. -/
def updY (s : State) : Except Err State :=
  if Stage.Model ≤ s.currentSystemStage then .ok (s.invalidateAll Stage.Dynamics)
  else .error .stageViolation

/-- Modelled from the spec: `setTime(t)` — `updTime()` followed by the
write. -/
def setTime (s : State) (v : Int) : Except Err State :=
  match s.updTime with
  | .error e => .error e
  | .ok s₁ => .ok { s₁ with t := v }

/-- Modelled from the spec: `setQ(q)` — `updQ()` followed by the write of
the global q view (the new vector must have length `nq`). -/
def setQ (s : State) (v : List AV) : Except Err State :=
  if v.length = s.nq then
    match s.updQ with
    | .error e => .error e
    | .ok s₁ => .ok { s₁ with y := v ++ (s₁.uView ++ s₁.zView) }
  else .error .indexOutOfRange

/-- Modelled from the spec: `setU(u)` — `updU()` followed by the write of
the global u view. -/
def setU (s : State) (v : List AV) : Except Err State :=
  if v.length = s.nu then
    match s.updU with
    | .error e => .error e
    | .ok s₁ => .ok { s₁ with y := s₁.qView ++ (v ++ s₁.zView) }
  else .error .indexOutOfRange

/-- Modelled from the spec: `setZ(z)` — `updZ()` followed by the write of
the global z view. -/
def setZ (s : State) (v : List AV) : Except Err State :=
  if v.length = s.nz then
    match s.updZ with
    | .error e => .error e
    | .ok s₁ => .ok { s₁ with y := s₁.qView ++ (s₁.uView ++ v) }
  else .error .indexOutOfRange

/-- Modelled from the spec: `setY(y)` — `updY()` followed by the write of
the whole packed vector. -/
def setY (s : State) (v : List AV) : Except Err State :=
  if v.length = s.nq + s.nu + s.nz then
    match s.updY with
    | .error e => .error e
    | .ok s₁ => .ok { s₁ with y := v }
  else .error .indexOutOfRange

end State

/-- The public mutating operations of the `State` facade, used to state
properties that hold after every operation. -/
inductive Op where
  | addSubsystem (nm ver : String)
  | advanceSubsystemToStage (i : Nat) (g : Stage)
  | advanceSystemToStage (g : Stage)
  | invalidateAll (g : Stage)
  | invalidateAllCacheAtOrAbove (g : Stage)
  | allocateQ (i : Nat) (qInit : List AV)
  | allocateU (i : Nat) (uInit : List AV)
  | allocateZ (i : Nat) (zInit : List AV)
  | allocateDiscreteVariable (i : Nat) (inv : Stage) (v : AV)
  | allocateAutoUpdateDiscreteVariable (i : Nat) (inv : Stage) (v : AV) (dep : Stage)
  | allocateCacheEntry (i : Nat) (earliest latest : Stage) (v : AV)
  | allocateLazyCacheEntry (i : Nat) (earliest : Stage) (v : AV)
  | updDiscreteVariable (i dvi : Nat) (v : AV)
  | setDiscreteVariable (i dvi : Nat) (v : AV)
  | updCacheEntry (i cx : Nat) (v : AV)
  | markCacheValueRealized (i cx : Nat)
  | markCacheValueNotRealized (i cx : Nat)
  | markDiscreteVarUpdateValueRealized (i dvi : Nat)
  | updDiscreteVarUpdateValue (i dvi : Nat) (v : AV)
  | autoUpdateDiscreteVariables
  | updTime
  | updQ
  | updU
  | updZ
  | updY
  | setTime (v : Int)
  | setQ (v : List AV)
  | setU (v : List AV)
  | setZ (v : List AV)
  | setY (v : List AV)
deriving DecidableEq, Repr

namespace State

/-- Dispatch one public operation. -/
def step (s : State) : Op → Except Err State
  | .addSubsystem nm ver => s.addSubsystem nm ver
  | .advanceSubsystemToStage i g => s.advanceSubsystemToStage i g
  | .advanceSystemToStage g => s.advanceSystemToStage g
  | .invalidateAll g => .ok (s.invalidateAll g)
  | .invalidateAllCacheAtOrAbove g => s.invalidateAllCacheAtOrAbove g
  | .allocateQ i qInit => s.allocateQ i qInit
  | .allocateU i uInit => s.allocateU i uInit
  | .allocateZ i zInit => s.allocateZ i zInit
  | .allocateDiscreteVariable i inv v => s.allocateDiscreteVariable i inv v
  | .allocateAutoUpdateDiscreteVariable i inv v dep =>
      s.allocateAutoUpdateDiscreteVariable i inv v dep
  | .allocateCacheEntry i e l v => s.allocateCacheEntry i e l v
  | .allocateLazyCacheEntry i e v => s.allocateLazyCacheEntry i e v
  | .updDiscreteVariable i dvi v => s.updDiscreteVariable i dvi v
  | .setDiscreteVariable i dvi v => s.setDiscreteVariable i dvi v
  | .updCacheEntry i cx v => s.updCacheEntry i cx v
  | .markCacheValueRealized i cx => s.markCacheValueRealized i cx
  | .markCacheValueNotRealized i cx => s.markCacheValueNotRealized i cx
  | .markDiscreteVarUpdateValueRealized i dvi =>
      s.markDiscreteVarUpdateValueRealized i dvi
  | .updDiscreteVarUpdateValue i dvi v => s.updDiscreteVarUpdateValue i dvi v
  | .autoUpdateDiscreteVariables => .ok s.autoUpdateDiscreteVariables
  | .updTime => s.updTime
  | .updQ => s.updQ
  | .updU => s.updU
  | .updZ => s.updZ
  | .updY => s.updY
  | .setTime v => s.setTime v
  | .setQ v => s.setQ v
  | .setU v => s.setU v
  | .setZ v => s.setZ v
  | .setY v => s.setY v

/-- Run a list of operations from a starting state, stopping at the first
failure. -/
def runOps (s : State) : List Op → Except Err State
  | [] => .ok s
  | op :: rest =>
    match s.step op with
    | .error e => .error e
    | .ok s' => s'.runOps rest

end State

/-- The global-stage invariant: the System stage never exceeds any
subsystem's stage (hence never exceeds their minimum). -/
def StageInvariant (s : State) : Prop :=
  ∀ ss ∈ s.subsystems, s.currentSystemStage ≤ ss.stage

theorem Subsystem.invalidateTo_stage (ss : Subsystem) (g : Stage) :
    (ss.invalidateTo g).stage = Stage.minStage ss.stage g.prev := by
  rw [← Stage.backup_eq_minStage ss.stage g, Subsystem.invalidateTo]
  split <;> rfl

theorem State.invalidateAll_subsystems (s : State) (g : Stage) :
    (s.invalidateAll g).subsystems =
      s.subsystems.map (fun ss => ss.invalidateTo g) := by
  rw [State.invalidateAll]
  split <;> split <;> rfl

theorem State.invalidateAll_sysStage (s : State) (g : Stage) :
    (s.invalidateAll g).currentSystemStage =
      Stage.minStage s.currentSystemStage g.prev := by
  rw [← Stage.backup_eq_minStage s.currentSystemStage g, State.invalidateAll]
  split <;> split <;> rfl

theorem State.invalidateAll_t (s : State) (g : Stage) :
    (s.invalidateAll g).t = s.t := by
  rw [State.invalidateAll]
  split <;> split <;> rfl

/-- The stage profile of `s'` is exactly that of `s` with every stage (the
System's and each subsystem's) backed up to the stage just prior to `g` —
a no-op for any stage already at or below `g - 1`. -/
def StagesBackedTo (s s' : State) (g : Stage) : Prop :=
  s'.currentSystemStage = Stage.minStage s.currentSystemStage g.prev ∧
  ∀ i : Nat, (s'.subsystems[i]?).map Subsystem.stage =
    (s.subsystems[i]?).map (fun ss => Stage.minStage ss.stage g.prev)

theorem State.invalidateAll_backsUp (s : State) (g : Stage) :
    StagesBackedTo s (s.invalidateAll g) g := by
  refine ⟨s.invalidateAll_sysStage g, fun i => ?_⟩
  rw [s.invalidateAll_subsystems g, List.getElem?_map]
  cases s.subsystems[i]? with
  | none => rfl
  | some ss => simp [Subsystem.invalidateTo_stage]

theorem Stage.minStage_left {a b : Stage} (h : a ≤ b) :
    Stage.minStage a b = a := by
  rw [Stage.minStage, if_pos h]

theorem Stage.minStage_prev_of_le {a g : Stage} (h : g ≤ a) :
    Stage.minStage a g.prev = g.prev := by
  revert h; revert a g; decide

theorem State.withSub_ok {s : State} {i : Nat}
    {f : Subsystem → Except Err Subsystem} {s' : State}
    (h : s.withSub i f = .ok s') :
    ∃ ss ss', s.subsystems[i]? = some ss ∧ f ss = .ok ss' ∧
      s' = { s with subsystems := updateAt s.subsystems i (fun _ => ss') } := by
  cases hss : s.subsystems[i]? with
  | none => simp [State.withSub, hss] at h
  | some ss =>
    cases hf : f ss with
    | error e => simp [State.withSub, hss, hf] at h
    | ok ss' =>
      simp only [State.withSub, hss, hf] at h
      cases h
      exact ⟨ss, ss', rfl, hf, rfl⟩

/-- Claim C8: `advanceSubsystemToStage(subsystem, g)` succeeds only when
`g` is exactly one stage above that subsystem's current stage (and then
sets its stage to `g`), rejects any larger jump, and invalidation may
decrease a subsystem's stage by arbitrarily many stages in one call. -/
theorem claimC8_advanceSubsystem_oneStage :
    (∀ (s : State) (i : Nat) (g : Stage) (s' : State),
      s.advanceSubsystemToStage i g = .ok s' →
      ∃ ss, s.subsystems[i]? = some ss ∧ g = Stage.next ss.stage ∧
        s'.subsystems[i]? = some { ss with stage := g }) ∧
    (∀ (s : State) (i : Nat) (g : Stage) (ss : Subsystem),
      s.subsystems[i]? = some ss → ¬g = Stage.next ss.stage →
      s.advanceSubsystemToStage i g = .error .stageViolation) ∧
    (∀ (s : State) (i : Nat) (g : Stage) (ss : Subsystem),
      s.subsystems[i]? = some ss → g ≤ ss.stage →
      ((s.invalidateAll g).subsystems[i]?).map Subsystem.stage =
        some (Stage.prev g)) := by
  refine ⟨?_, ?_, ?_⟩
  · intro s i g s' h
    rcases State.withSub_ok h with ⟨ss, ss', hss, hf, rfl⟩
    refine ⟨ss, hss, ?_, ?_⟩
    · by_contra hne
      rw [if_neg (fun hc => hne hc.1)] at hf
      cases hf
    · have hcond : g = Stage.next ss.stage ∧ ¬g = Stage.Infinity := by
        by_contra hc
        rw [if_neg hc] at hf
        cases hf
      rw [if_pos hcond] at hf
      cases hf
      show (updateAt s.subsystems i (fun _ => _))[i]? = _
      rw [updateAt_getElem?, if_pos rfl, hss]
      rfl
  · intro s i g ss hss hne
    simp only [State.advanceSubsystemToStage, State.withSub, hss]
    rw [if_neg (fun hc => hne hc.1)]
  · intro s i g ss hss hle
    rw [s.invalidateAll_subsystems g, List.getElem?_map, hss]
    simp [Subsystem.invalidateTo_stage, Stage.minStage_prev_of_le hle]

/-- A one-subsystem state used to instantiate theorems at concrete
inputs. -/
def demo1 : State :=
  { t := 0, currentSystemStage := Stage.Empty
    subsystems := [Subsystem.fresh "demo" "1"]
    y := [], nq := 0, nu := 0, nz := 0 }

theorem claimC8_witness :
    demo1.advanceSubsystemToStage 0 Stage.Model = .error .stageViolation ∧
    (∃ ss, demo1.subsystems[0]? = some ss ∧
      Stage.Topology = Stage.next ss.stage ∧
      ∀ s', demo1.advanceSubsystemToStage 0 Stage.Topology = .ok s' →
        s'.subsystems[0]? = some { ss with stage := Stage.Topology }) ∧
    ((demo1.invalidateAll Stage.Empty).subsystems[0]?).map Subsystem.stage =
      some Stage.Empty := by
  refine ⟨?_, ?_, ?_⟩
  · exact claimC8_advanceSubsystem_oneStage.2.1 demo1 0 Stage.Model
      (Subsystem.fresh "demo" "1") rfl (by decide)
  · refine ⟨Subsystem.fresh "demo" "1", rfl, by decide, ?_⟩
    intro s' h
    rcases claimC8_advanceSubsystem_oneStage.1 demo1 0 Stage.Topology s' h with
      ⟨ss, hss, _, hget⟩
    cases hss.symm.trans (rfl : demo1.subsystems[0]? = some (Subsystem.fresh "demo" "1"))
    exact hget
  · exact claimC8_advanceSubsystem_oneStage.2.2 demo1 0 Stage.Empty
      (Subsystem.fresh "demo" "1") rfl (by decide)

/-- Claim C9: the const invalidation method `invalidateAllCacheAtOrAbove(g)`
may only be used with `g` at `Instance` or higher (it fails on `Model` or
`Topology`), while the non-const `invalidateAll` performs the backup for
every stage. -/
theorem claimC9_const_invalidation_restriction (s : State) (g : Stage) :
    ((s.invalidateAllCacheAtOrAbove g).isOk = true ↔ Stage.Instance ≤ g) ∧
    (Stage.Instance ≤ g →
      s.invalidateAllCacheAtOrAbove g = .ok (s.invalidateAll g)) ∧
    (¬Stage.Instance ≤ g →
      s.invalidateAllCacheAtOrAbove g = .error .stageViolation) ∧
    StagesBackedTo s (s.invalidateAll g) g := by
  refine ⟨?_, ?_, ?_, s.invalidateAll_backsUp g⟩
  · constructor
    · intro hok
      by_contra hlt
      rw [State.invalidateAllCacheAtOrAbove, if_neg hlt] at hok
      cases hok
    · intro hge
      rw [State.invalidateAllCacheAtOrAbove, if_pos hge]
      rfl
  · intro hge
    rw [State.invalidateAllCacheAtOrAbove, if_pos hge]
  · intro hlt
    rw [State.invalidateAllCacheAtOrAbove, if_neg hlt]

theorem claimC9_witness :
    demo1.invalidateAllCacheAtOrAbove Stage.Instance =
      .ok (demo1.invalidateAll Stage.Instance) ∧
    demo1.invalidateAllCacheAtOrAbove Stage.Model = .error .stageViolation ∧
    demo1.invalidateAllCacheAtOrAbove Stage.Topology = .error .stageViolation := by
  refine ⟨?_, ?_, ?_⟩
  · exact (claimC9_const_invalidation_restriction demo1 Stage.Instance).2.1 (by decide)
  · exact (claimC9_const_invalidation_restriction demo1 Stage.Model).2.2.1 (by decide)
  · exact (claimC9_const_invalidation_restriction demo1 Stage.Topology).2.2.1 (by decide)

/-- Claim C10: for a `State` realized to at least `Model` stage, each
continuous-state mutator backs the stage profile up to a fixed level:
`updTime`/`setTime` to `Time - 1`, `updQ`/`setQ` to `Position - 1`,
`updU`/`setU` to `Velocity - 1`, and `updZ`/`setZ`/`updY`/`setY` to
`Dynamics - 1`; a stage already at or below that level is left unchanged
(`StagesBackedTo` takes the pointwise minimum with the level). -/
theorem claimC10_mutator_backUp (s : State)
    (hM : Stage.Model ≤ s.currentSystemStage) :
    (∃ s', s.updTime = .ok s' ∧ StagesBackedTo s s' Stage.Time) ∧
    (∃ s', s.updQ = .ok s' ∧ StagesBackedTo s s' Stage.Position) ∧
    (∃ s', s.updU = .ok s' ∧ StagesBackedTo s s' Stage.Velocity) ∧
    (∃ s', s.updZ = .ok s' ∧ StagesBackedTo s s' Stage.Dynamics) ∧
    (∃ s', s.updY = .ok s' ∧ StagesBackedTo s s' Stage.Dynamics) ∧
    (∀ v : Int, ∃ s', s.setTime v = .ok s' ∧ StagesBackedTo s s' Stage.Time) ∧
    (∀ v : List AV, v.length = s.nq →
      ∃ s', s.setQ v = .ok s' ∧ StagesBackedTo s s' Stage.Position) ∧
    (∀ v : List AV, v.length = s.nu →
      ∃ s', s.setU v = .ok s' ∧ StagesBackedTo s s' Stage.Velocity) ∧
    (∀ v : List AV, v.length = s.nz →
      ∃ s', s.setZ v = .ok s' ∧ StagesBackedTo s s' Stage.Dynamics) ∧
    (∀ v : List AV, v.length = s.nq + s.nu + s.nz →
      ∃ s', s.setY v = .ok s' ∧ StagesBackedTo s s' Stage.Dynamics) ∧
    (∀ g : Stage, s.currentSystemStage ≤ Stage.prev g →
      (s.invalidateAll g).currentSystemStage = s.currentSystemStage) := by
  refine ⟨⟨s.invalidateAll Stage.Time, ?_, s.invalidateAll_backsUp Stage.Time⟩,
    ⟨s.invalidateAll Stage.Position, ?_, s.invalidateAll_backsUp Stage.Position⟩,
    ⟨s.invalidateAll Stage.Velocity, ?_, s.invalidateAll_backsUp Stage.Velocity⟩,
    ⟨s.invalidateAll Stage.Dynamics, ?_, s.invalidateAll_backsUp Stage.Dynamics⟩,
    ⟨s.invalidateAll Stage.Dynamics, ?_, s.invalidateAll_backsUp Stage.Dynamics⟩,
    ?_, ?_, ?_, ?_, ?_, ?_⟩
  · rw [State.updTime, if_pos hM]
  · rw [State.updQ, if_pos hM]
  · rw [State.updU, if_pos hM]
  · rw [State.updZ, if_pos hM]
  · rw [State.updY, if_pos hM]
  · intro v
    refine ⟨{ s.invalidateAll Stage.Time with t := v }, ?_, ?_⟩
    · rw [State.setTime, State.updTime, if_pos hM]
    · exact s.invalidateAll_backsUp Stage.Time
  · intro v hv
    refine ⟨{ s.invalidateAll Stage.Position with
        y := v ++ ((s.invalidateAll Stage.Position).uView ++
          (s.invalidateAll Stage.Position).zView) }, ?_, ?_⟩
    · rw [State.setQ, if_pos hv, State.updQ, if_pos hM]
    · exact s.invalidateAll_backsUp Stage.Position
  · intro v hv
    refine ⟨{ s.invalidateAll Stage.Velocity with
        y := (s.invalidateAll Stage.Velocity).qView ++
          (v ++ (s.invalidateAll Stage.Velocity).zView) }, ?_, ?_⟩
    · rw [State.setU, if_pos hv, State.updU, if_pos hM]
    · exact s.invalidateAll_backsUp Stage.Velocity
  · intro v hv
    refine ⟨{ s.invalidateAll Stage.Dynamics with
        y := (s.invalidateAll Stage.Dynamics).qView ++
          ((s.invalidateAll Stage.Dynamics).uView ++ v) }, ?_, ?_⟩
    · rw [State.setZ, if_pos hv, State.updZ, if_pos hM]
    · exact s.invalidateAll_backsUp Stage.Dynamics
  · intro v hv
    refine ⟨{ s.invalidateAll Stage.Dynamics with y := v }, ?_, ?_⟩
    · rw [State.setY, if_pos hv, State.updY, if_pos hM]
    · exact s.invalidateAll_backsUp Stage.Dynamics
  · intro g hle
    rw [s.invalidateAll_sysStage g]
    exact Stage.minStage_left hle

/-- A state at `Acceleration` stage with one subsystem, used as a
concrete input. -/
def demoAccel : State :=
  { t := 0, currentSystemStage := Stage.Acceleration
    subsystems := [{ Subsystem.fresh "demo" "1" with stage := Stage.Acceleration }]
    y := [], nq := 0, nu := 0, nz := 0 }

theorem claimC10_witness :
    (∃ s', demoAccel.updQ = .ok s' ∧
      StagesBackedTo demoAccel s' Stage.Position) ∧
    (∃ s', demoAccel.setTime 3 = .ok s' ∧
      StagesBackedTo demoAccel s' Stage.Time) ∧
    (demoAccel.invalidateAll Stage.Infinity).currentSystemStage =
      demoAccel.currentSystemStage := by
  have h := claimC10_mutator_backUp demoAccel (by decide)
  exact ⟨h.2.1, h.2.2.2.2.2.1 3, h.2.2.2.2.2.2.2.2.2.2 Stage.Infinity (by decide)⟩

/-- The realizable stages in order, `Topology` through `Report`. -/
def realStages : List Stage :=
  [.Topology, .Model, .Instance, .Time, .Position, .Velocity, .Dynamics,
   .Acceleration, .Report]

/-- Operations advancing one subsystem (index 0) and the System in
lock-step from `Empty` up to the given target stage. -/
def advanceBoth (g : Stage) : List Op :=
  ((realStages.filter (fun st => decide (st ≤ g))).map
    (fun st => [Op.advanceSubsystemToStage 0 st, Op.advanceSystemToStage st])).flatten

/-- Lazy-cache scenario, phase 1: one subsystem allocates a lazy cache
entry with `earliest = Position` at `Empty` stage, then everything is
advanced to `Time` — one short of `Position`. -/
def lazyOpsPre : List Op :=
  [.addSubsystem "A" "1", .allocateLazyCacheEntry 0 Stage.Position 0] ++
    advanceBoth Stage.Time

/-- Lazy-cache scenario, phase 2: continue to `Position`. -/
def lazyOpsAtPos : List Op :=
  lazyOpsPre ++ [.advanceSubsystemToStage 0 Stage.Position,
    .advanceSystemToStage Stage.Position]

/-- Lazy-cache scenario, phase 3: write the update value `w` into the
entry and mark it realized. -/
def lazyOpsFinal (w : AV) : List Op :=
  lazyOpsAtPos ++ [.updCacheEntry 0 0 w, .markCacheValueRealized 0 0]

/-- Claim C2: `getCacheEntry` succeeds exactly when `isCacheValueRealized`
is true; `isCacheValueRealized` is the explicit validity flag or — only
for finite `latest` — the owning subsystem's stage having reached
`latest`; a lazy entry (`latest = Infinity`) is never presumed valid by
stage advancement, so in the scenario `getCacheEntry` fails before
`Position`, still fails at `Position` (and after a bare `updCacheEntry`),
and returns the written value after `updCacheEntry` plus
`markCacheValueRealized`. -/
theorem claimC2_cache_realization :
    (∀ (s : State) (i cx : Nat) (b : Bool),
      s.isCacheValueRealized i cx = .ok b → (s.getCacheEntry i cx).isOk = b) ∧
    (∀ (s : State) (i cx : Nat) (ss : Subsystem) (ce : CacheEntry),
      s.subsystems[i]? = some ss → ss.cache[cx]? = some ce →
      s.isCacheValueRealized i cx =
        .ok (ce.valid || (decide (ce.latest ≠ Stage.Infinity) &&
          decide (ce.latest ≤ ss.stage)))) ∧
    (∀ (s : State) (i cx : Nat) (ss : Subsystem) (ce : CacheEntry),
      s.subsystems[i]? = some ss → ss.cache[cx]? = some ce →
      ce.latest = Stage.Infinity → ce.valid = false →
      s.getCacheEntry i cx = .error .stageViolation) ∧
    (∀ (s : State) (i cx : Nat) (ss : Subsystem) (ce : CacheEntry),
      s.subsystems[i]? = some ss → ss.cache[cx]? = some ce →
      ¬ce.latest = Stage.Infinity → ce.latest ≤ ss.stage →
      s.getCacheEntry i cx = .ok ce.value) ∧
    ((State.init.runOps lazyOpsPre).isOk = true ∧
      (State.init.runOps lazyOpsPre).bind (fun s => s.getCacheEntry 0 0) =
        .error .stageViolation) ∧
    ((State.init.runOps lazyOpsAtPos).isOk = true ∧
      (State.init.runOps lazyOpsAtPos).bind (fun s => s.getCacheEntry 0 0) =
        .error .stageViolation) ∧
    (∀ w : AV,
      (State.init.runOps (lazyOpsAtPos ++ [.updCacheEntry 0 0 w])).bind
        (fun s => s.getCacheEntry 0 0) = .error .stageViolation) ∧
    (∀ w : AV,
      (State.init.runOps (lazyOpsFinal w)).bind (fun s => s.getCacheEntry 0 0) =
        .ok w) := by
  refine ⟨?_, ?_, ?_, ?_, ⟨rfl, rfl⟩, ⟨rfl, rfl⟩, ?_, ?_⟩
  · intro s i cx b h
    cases hss : s.subsystems[i]? with
    | none => simp [State.isCacheValueRealized, hss] at h
    | some ss =>
      cases hce : ss.cache[cx]? with
      | none => simp [State.isCacheValueRealized, hss, hce] at h
      | some ce =>
        simp only [State.isCacheValueRealized, hss, hce, Except.ok.injEq] at h
        subst h
        simp only [State.getCacheEntry, hss, hce]
        cases hr : ce.isRealized ss.stage <;> simp [hr, Except.isOk, Except.toBool]
  · intro s i cx ss ce hss hce
    simp [State.isCacheValueRealized, hss, hce, CacheEntry.isRealized]
  · intro s i cx ss ce hss hce hinf hval
    simp [State.getCacheEntry, hss, hce, CacheEntry.isRealized, hinf, hval]
  · intro s i cx ss ce hss hce hinf hle
    simp [State.getCacheEntry, hss, hce, CacheEntry.isRealized, hinf, hle]
  · intro w
    rfl
  · intro w
    rfl

/-- A lazy cache entry used as a concrete input. -/
def demoCE : CacheEntry :=
  { allocationStage := Stage.Empty, earliest := Stage.Position
    latest := Stage.Infinity, value := 5, valid := false }

/-- A subsystem at `Time` stage owning the lazy entry `demoCE`. -/
def demoCacheSub : Subsystem :=
  { Subsystem.fresh "c" "1" with stage := Stage.Time, cache := [demoCE] }

/-- A state at `Time` stage with the single subsystem `demoCacheSub`. -/
def demoCache : State :=
  { t := 0, currentSystemStage := Stage.Time, subsystems := [demoCacheSub]
    y := [], nq := 0, nu := 0, nz := 0 }

theorem claimC2_witness :
    demoCache.isCacheValueRealized 0 0 = .ok false ∧
    (demoCache.getCacheEntry 0 0).isOk = false ∧
    demoCache.getCacheEntry 0 0 = .error .stageViolation ∧
    (State.init.runOps (lazyOpsFinal 42)).bind (fun s => s.getCacheEntry 0 0) =
      .ok 42 := by
  refine ⟨?_, ?_, ?_, ?_⟩
  · exact claimC2_cache_realization.2.1 demoCache 0 0 demoCacheSub demoCE rfl rfl
  · exact claimC2_cache_realization.1 demoCache 0 0 false
      (claimC2_cache_realization.2.1 demoCache 0 0 demoCacheSub demoCE rfl rfl)
  · exact claimC2_cache_realization.2.2.1 demoCache 0 0 demoCacheSub demoCE
      rfl rfl rfl rfl
  · exact claimC2_cache_realization.2.2.2.2.2.2.2 42

/-- Round-trip scenario, phase 1: one subsystem allocates a single q
with initial value `v` and the state is advanced to `Model`. -/
def c5Ops1 (v : AV) : List Op :=
  [.addSubsystem "A" "1", .allocateQ 0 [v]] ++ advanceBoth Stage.Model

/-- Round-trip scenario, phase 2: write `w` through the q accessor. -/
def c5Ops2 (v w : AV) : List Op := c5Ops1 v ++ [.setQ [w]]

/-- Round-trip scenario, phase 3: invalidate back to `Topology` and
re-advance to `Model`. -/
def c5Ops3 (v w : AV) : List Op :=
  c5Ops2 v w ++ [.invalidateAll Stage.Model,
    .advanceSubsystemToStage 0 Stage.Model, .advanceSystemToStage Stage.Model]

/-- Claim C5: for every initial value `v` and written value `w` — after
advancing to `Model`, `getQ` returns the initial value; after writing
through the q mutator it returns the written value; and after
invalidating back to `Topology` and re-advancing to `Model` it returns
the allocation-time initial value again, not the written one. -/
theorem claimC5_q_roundTrip (v w : AV) :
    (State.init.runOps (c5Ops1 v)).bind State.getQ = .ok [v] ∧
    (State.init.runOps (c5Ops2 v w)).bind State.getQ = .ok [w] ∧
    (State.init.runOps (c5Ops2 v w)).bind
      (fun s => .ok s.currentSystemStage) = .ok Stage.Model ∧
    (State.init.runOps (c5Ops3 v w)).bind State.getQ = .ok [v] :=
  ⟨rfl, rfl, rfl, rfl⟩

/-- The number of q's assigned to subsystems before index `i`. -/
def sumQBefore (l : List Subsystem) (i : Nat) : Nat :=
  ((l.take i).map Subsystem.nq).sum

/-- The number of u's assigned to subsystems before index `i`. -/
def sumUBefore (l : List Subsystem) (i : Nat) : Nat :=
  ((l.take i).map Subsystem.nu).sum

/-- The number of z's assigned to subsystems before index `i`. -/
def sumZBefore (l : List Subsystem) (i : Nat) : Nat :=
  ((l.take i).map Subsystem.nz).sum

theorem assignOffsets_getElem? (l : List Subsystem) (qo uo zo i : Nat) :
    (State.assignOffsets qo uo zo l)[i]? = (l[i]?).map (fun ss =>
      { ss with qstart := qo + sumQBefore l i, ustart := uo + sumUBefore l i
                zstart := zo + sumZBefore l i }) := by
  induction l generalizing qo uo zo i with
  | nil => simp [State.assignOffsets]
  | cons a l ih =>
    cases i with
    | zero =>
      simp [State.assignOffsets, sumQBefore, sumUBefore, sumZBefore]
    | succ i =>
      simp only [State.assignOffsets, List.getElem?_cons_succ, ih,
        sumQBefore, sumUBefore, sumZBefore, List.take_succ_cons,
        List.map_cons, List.sum_cons, Nat.add_assoc]

theorem flatten_extract {α β : Type _} (f : α → List β) (g : α → Nat)
    (hfg : ∀ a, (f a).length = g a) (l : List α) (i : Nat) (a : α)
    (h : l[i]? = some a) :
    List.take (g a) (List.drop (((l.take i).map g).sum) (l.map f).flatten) =
      f a := by
  induction l generalizing i with
  | nil => simp at h
  | cons a0 l ih =>
    cases i with
    | zero =>
      rw [List.getElem?_cons_zero, Option.some.injEq] at h
      subst h
      rw [List.take_zero, List.map_nil, List.sum_nil, List.drop_zero,
        List.map_cons, List.flatten_cons, ← hfg a0, List.take_left]
    | succ i =>
      rw [List.getElem?_cons_succ] at h
      rw [List.take_succ_cons, List.map_cons, List.sum_cons, List.map_cons,
        List.flatten_cons, ← List.drop_drop, ← hfg a0, List.drop_left]
      exact ih i h

theorem Subsystem.length_qInitVals (ss : Subsystem) :
    ss.qInitVals.length = ss.nq := by
  rw [Subsystem.qInitVals, Subsystem.nq, List.length_flatten, List.map_map]
  rfl

theorem Subsystem.length_uInitVals (ss : Subsystem) :
    ss.uInitVals.length = ss.nu := by
  rw [Subsystem.uInitVals, Subsystem.nu, List.length_flatten, List.map_map]
  rfl

theorem Subsystem.length_zInitVals (ss : Subsystem) :
    ss.zInitVals.length = ss.nz := by
  rw [Subsystem.zInitVals, Subsystem.nz, List.length_flatten, List.map_map]
  rfl

theorem State.realizeModelPass_y (s : State) :
    (State.realizeModelPass s).y =
      (s.subsystems.map Subsystem.qInitVals).flatten ++
        ((s.subsystems.map Subsystem.uInitVals).flatten ++
         (s.subsystems.map Subsystem.zInitVals).flatten) := rfl

theorem State.realizeModelPass_nq (s : State) :
    (State.realizeModelPass s).nq =
      (s.subsystems.map Subsystem.qInitVals).flatten.length := rfl

theorem State.realizeModelPass_nu (s : State) :
    (State.realizeModelPass s).nu =
      (s.subsystems.map Subsystem.uInitVals).flatten.length := rfl

theorem State.realizeModelPass_nz (s : State) :
    (State.realizeModelPass s).nz =
      (s.subsystems.map Subsystem.zInitVals).flatten.length := rfl

theorem State.realizeModelPass_subsystems (s : State) :
    (State.realizeModelPass s).subsystems =
      State.assignOffsets 0 0 0 s.subsystems := rfl

theorem State.realizeModelPass_qView (s : State) :
    (State.realizeModelPass s).qView =
      (s.subsystems.map Subsystem.qInitVals).flatten := by
  rw [State.qView, State.realizeModelPass_nq, State.realizeModelPass_y]
  exact List.take_left _ _

theorem State.realizeModelPass_uView (s : State) :
    (State.realizeModelPass s).uView =
      (s.subsystems.map Subsystem.uInitVals).flatten := by
  rw [State.uView, State.realizeModelPass_nu, State.realizeModelPass_nq,
    State.realizeModelPass_y, List.drop_left]
  exact List.take_left _ _

theorem State.realizeModelPass_zView (s : State) :
    (State.realizeModelPass s).zView =
      (s.subsystems.map Subsystem.zInitVals).flatten := by
  rw [State.zView, State.realizeModelPass_nz, State.realizeModelPass_nq,
    State.realizeModelPass_nu, State.realizeModelPass_y, ← List.drop_drop,
    List.drop_left, List.drop_left]
  exact List.take_length _

theorem State.advance_model_ok {s s' : State}
    (h : s.advanceSystemToStage Stage.Model = .ok s') :
    s' = State.realizeModelPass { s with currentSystemStage := Stage.Model } := by
  rw [State.advanceSystemToStage] at h
  split at h
  · rw [if_pos rfl] at h
    cases h
    rfl
  · cases h

/-- Concrete layout scenario: subsystem A allocates 3 q's and 2 u's,
subsystem B allocates 1 q, and the state is advanced to `Model`. -/
def c6Ops : List Op :=
  [.addSubsystem "A" "1", .addSubsystem "B" "1",
   .allocateQ 0 [1, 2, 3], .allocateU 0 [4, 5], .allocateQ 1 [7],
   .advanceSubsystemToStage 0 Stage.Topology,
   .advanceSubsystemToStage 1 Stage.Topology,
   .advanceSystemToStage Stage.Topology,
   .advanceSubsystemToStage 0 Stage.Model,
   .advanceSubsystemToStage 1 Stage.Model,
   .advanceSystemToStage Stage.Model]

/-- Claim C6: after the System advances to `Model`, each subsystem's q's
occupy a contiguous block of the global q array at offset equal to the
total q-count of the lower-indexed subsystems (and likewise for u's and
z's), the global y is all q's then all u's then all z's in subsystem
order, and in the concrete scenario (A: 3 q's and 2 u's; B: 1 q)
`getNQ() = 4`, `getQStart(B) = 3`, and `getU(A)` has size 2. -/
theorem claimC6_model_layout :
    (∀ (s s' : State) (i : Nat) (ss : Subsystem),
      s.advanceSystemToStage Stage.Model = .ok s' →
      s.subsystems[i]? = some ss →
      s'.getQStartSub i = .ok (sumQBefore s.subsystems i) ∧
      s'.getUStartSub i = .ok (sumUBefore s.subsystems i) ∧
      s'.getQSub i = .ok ss.qInitVals ∧
      s'.getUSub i = .ok ss.uInitVals ∧
      s'.getZSub i = .ok ss.zInitVals ∧
      s'.getNQSub i = .ok ss.nq) ∧
    (∀ (s s' : State), s.advanceSystemToStage Stage.Model = .ok s' →
      s'.getNQ = .ok ((s.subsystems.map Subsystem.qInitVals).flatten.length) ∧
      s'.getY = .ok ((s.subsystems.map Subsystem.qInitVals).flatten ++
        ((s.subsystems.map Subsystem.uInitVals).flatten ++
         (s.subsystems.map Subsystem.zInitVals).flatten))) ∧
    ((State.init.runOps c6Ops).bind State.getNQ = .ok 4 ∧
     (State.init.runOps c6Ops).bind (fun s => s.getQStartSub 1) = .ok 3 ∧
     (State.init.runOps c6Ops).bind
       (fun s => (s.getUSub 0).map List.length) = .ok 2 ∧
     (State.init.runOps c6Ops).bind State.getY = .ok [1, 2, 3, 7, 4, 5]) := by
  refine ⟨?_, ?_, rfl, rfl, rfl, rfl⟩
  · intro s s' i ss hadv hss
    have hs' := State.advance_model_ok hadv
    subst hs'
    have hsub :
        (State.realizeModelPass
          { s with currentSystemStage := Stage.Model }).subsystems[i]? =
        some { ss with qstart := 0 + sumQBefore s.subsystems i
                       ustart := 0 + sumUBefore s.subsystems i
                       zstart := 0 + sumZBefore s.subsystems i } := by
      rw [State.realizeModelPass_subsystems]
      show (State.assignOffsets 0 0 0 s.subsystems)[i]? = _
      rw [assignOffsets_getElem?]
      show (s.subsystems[i]?).map _ = _
      rw [hss]
      rfl
    have hM : Stage.Model ≤ (State.realizeModelPass
        { s with currentSystemStage := Stage.Model }).currentSystemStage :=
      Stage.le_refl Stage.Model
    refine ⟨?_, ?_, ?_, ?_, ?_, ?_⟩
    · rw [State.getQStartSub, if_pos hM, hsub]
      show Except.ok (0 + sumQBefore s.subsystems i) = _
      rw [Nat.zero_add]
    · rw [State.getUStartSub, if_pos hM, hsub]
      show Except.ok (0 + sumUBefore s.subsystems i) = _
      rw [Nat.zero_add]
    · rw [State.getQSub, if_pos hM, hsub]
      show Except.ok (List.take ss.nq (List.drop (0 + sumQBefore s.subsystems i)
        (State.realizeModelPass { s with currentSystemStage := Stage.Model }).qView)) = _
      rw [Nat.zero_add, State.realizeModelPass_qView, sumQBefore,
        ← Subsystem.length_qInitVals ss]
      show Except.ok (List.take (Subsystem.qInitVals ss).length _) = _
      rw [Subsystem.length_qInitVals ss,
        flatten_extract Subsystem.qInitVals Subsystem.nq
          Subsystem.length_qInitVals s.subsystems i ss hss]
    · rw [State.getUSub, if_pos hM, hsub]
      show Except.ok (List.take ss.nu (List.drop (0 + sumUBefore s.subsystems i)
        (State.realizeModelPass { s with currentSystemStage := Stage.Model }).uView)) = _
      rw [Nat.zero_add, State.realizeModelPass_uView, sumUBefore,
        flatten_extract Subsystem.uInitVals Subsystem.nu
          Subsystem.length_uInitVals s.subsystems i ss hss]
    · rw [State.getZSub, if_pos hM, hsub]
      show Except.ok (List.take ss.nz (List.drop (0 + sumZBefore s.subsystems i)
        (State.realizeModelPass { s with currentSystemStage := Stage.Model }).zView)) = _
      rw [Nat.zero_add, State.realizeModelPass_zView, sumZBefore,
        flatten_extract Subsystem.zInitVals Subsystem.nz
          Subsystem.length_zInitVals s.subsystems i ss hss]
    · rw [State.getNQSub, if_pos hM, hsub]
      rfl
  · intro s s' hadv
    have hs' := State.advance_model_ok hadv
    subst hs'
    have hM : Stage.Model ≤ (State.realizeModelPass
        { s with currentSystemStage := Stage.Model }).currentSystemStage :=
      Stage.le_refl Stage.Model
    exact ⟨by rw [State.getNQ, if_pos hM]; rfl,
      by rw [State.getY, if_pos hM]; rfl⟩

/-- Concrete subsystem A (3 q's, 2 u's) at `Model` stage. -/
def demoA : Subsystem :=
  { Subsystem.fresh "A" "1" with
    stage := Stage.Model
    qInfo := [{ allocationStage := Stage.Empty, inits := [1, 2, 3] }]
    uInfo := [{ allocationStage := Stage.Empty, inits := [4, 5] }] }

/-- Concrete subsystem B (1 q) at `Model` stage. -/
def demoB : Subsystem :=
  { Subsystem.fresh "B" "1" with
    stage := Stage.Model
    qInfo := [{ allocationStage := Stage.Empty, inits := [7] }] }

/-- A two-subsystem state at `Topology`, ready to advance to `Model`. -/
def demoPre : State :=
  { t := 0, currentSystemStage := Stage.Topology, subsystems := [demoA, demoB]
    y := [], nq := 0, nu := 0, nz := 0 }

theorem claimC6_witness :
    ∃ s', demoPre.advanceSystemToStage Stage.Model = .ok s' ∧
      s'.getQStartSub 1 = .ok 3 ∧ s'.getQSub 1 = .ok [7] ∧
      s'.getUSub 0 = .ok [4, 5] ∧ s'.getNQ = .ok 4 := by
  have hadv : demoPre.advanceSystemToStage Stage.Model =
      .ok (State.realizeModelPass
        { demoPre with currentSystemStage := Stage.Model }) := rfl
  have hB := claimC6_model_layout.1 demoPre _ 1 demoB hadv rfl
  have hA := claimC6_model_layout.1 demoPre _ 0 demoA hadv rfl
  have hG := claimC6_model_layout.2.1 demoPre _ hadv
  exact ⟨_, hadv, hB.1.trans (by rfl), hB.2.2.1.trans (by rfl),
    hA.2.2.2.1.trans (by rfl), hG.1.trans (by rfl)⟩

theorem Stage.minStage_le_right (a b : Stage) : Stage.minStage a b ≤ b := by
  revert a b; decide

theorem Subsystem.invalidateTo_discrete_of_survive {ss : Subsystem}
    {g : Stage} (h : ∀ d ∈ ss.discrete, d.allocationStage < Stage.prev g) :
    (ss.invalidateTo g).discrete = ss.discrete := by
  rw [Subsystem.invalidateTo]
  split
  · show List.filter _ ss.discrete = ss.discrete
    rw [List.filter_eq_self]
    intro d hd
    exact decide_eq_true (h d hd)
  · rfl

theorem State.updDiscreteVariable_ok {s : State} {i dvi : Nat}
    {ss : Subsystem} {dv : DiscreteVar} (v : AV)
    (hss : s.subsystems[i]? = some ss) (hdv : ss.discrete[dvi]? = some dv) :
    s.updDiscreteVariable i dvi v =
      .ok { s.invalidateAll dv.invalidates with
        subsystems := (updateAt (s.invalidateAll dv.invalidates).subsystems i
          (fun ss₁ =>
            { ss₁ with discrete := (updateAt ss₁.discrete dvi (fun d =>
                { d with value := v, lastUpdateTime := s.t })) })) } := by
  simp only [State.updDiscreteVariable, hss, hdv]

theorem State.updDiscreteVariable_fields {s : State} {i dvi : Nat}
    {ss : Subsystem} {dv : DiscreteVar} (v : AV)
    (hss : s.subsystems[i]? = some ss) (hdv : ss.discrete[dvi]? = some dv)
    (hsurv : ∀ d ∈ ss.discrete, d.allocationStage < Stage.prev dv.invalidates) :
    ∃ s', s.updDiscreteVariable i dvi v = .ok s' ∧
      s'.currentSystemStage =
        Stage.minStage s.currentSystemStage (Stage.prev dv.invalidates) ∧
      s'.subsystems[i]? = some { ss.invalidateTo dv.invalidates with
        discrete := (updateAt ss.discrete dvi
          (fun d => { d with value := v, lastUpdateTime := s.t })) } := by
  have hsub₁ : (s.invalidateAll dv.invalidates).subsystems[i]? =
      some (ss.invalidateTo dv.invalidates) := by
    rw [State.invalidateAll_subsystems, List.getElem?_map, hss]
    rfl
  refine ⟨_, State.updDiscreteVariable_ok v hss hdv, ?_, ?_⟩
  · exact State.invalidateAll_sysStage s dv.invalidates
  · show (updateAt (s.invalidateAll dv.invalidates).subsystems i _)[i]? = _
    rw [updateAt_getElem?, if_pos rfl, hsub₁]
    rw [Option.map_some', Option.some.injEq]
    show { ss.invalidateTo dv.invalidates with
      discrete := (updateAt (ss.invalidateTo dv.invalidates).discrete dvi
        (fun d => { d with value := v, lastUpdateTime := s.t })) } = _
    rw [Subsystem.invalidateTo_discrete_of_survive hsurv]

/-- Operations advancing subsystem 0 and the System in lock-step from
`Instance` up to `Acceleration` (used after a `Model`-stage setup). -/
def advanceRestToAccel : List Op :=
  [.advanceSubsystemToStage 0 Stage.Instance, .advanceSystemToStage Stage.Instance,
   .advanceSubsystemToStage 0 Stage.Time, .advanceSystemToStage Stage.Time,
   .advanceSubsystemToStage 0 Stage.Position, .advanceSystemToStage Stage.Position,
   .advanceSubsystemToStage 0 Stage.Velocity, .advanceSystemToStage Stage.Velocity,
   .advanceSubsystemToStage 0 Stage.Dynamics, .advanceSystemToStage Stage.Dynamics,
   .advanceSubsystemToStage 0 Stage.Acceleration, .advanceSystemToStage Stage.Acceleration]

/-- Write-a-discrete-variable scenario: a `Velocity`-invalidating
discrete variable is allocated, everything is advanced to `Acceleration`
with the time set to 5 on the way (at `Model`), and then the variable is
written. -/
def c4Ops (v : AV) : List Op :=
  [.addSubsystem "A" "1", .allocateDiscreteVariable 0 Stage.Velocity 1] ++
    advanceBoth Stage.Model ++ [.setTime 5] ++ advanceRestToAccel ++
    [.setDiscreteVariable 0 0 v]

/-- Claim C4: a write through `updDiscreteVariable`/`setDiscreteVariable`
records the current time as the variable's last-update time and stores
the value; if the owning subsystem's stage is at or above the variable's
`invalidates` stage `S` it is backed down to `S - 1`, and the global
stage ends at or below `S - 1`; concretely, writing a
`Velocity`-invalidating variable at `Acceleration` leaves the subsystem
at `Position` and the global stage at `Position`. -/
theorem claimC4_discrete_write :
    (∀ (s : State) (i dvi : Nat) (v : AV),
      s.setDiscreteVariable i dvi v = s.updDiscreteVariable i dvi v) ∧
    (∀ (s : State) (i dvi : Nat) (ss : Subsystem) (dv : DiscreteVar) (v : AV),
      s.subsystems[i]? = some ss → ss.discrete[dvi]? = some dv →
      (∀ d ∈ ss.discrete, d.allocationStage < Stage.prev dv.invalidates) →
      ∃ s', s.updDiscreteVariable i dvi v = .ok s' ∧
        s'.getDiscreteVarLastUpdateTime i dvi = .ok s.t ∧
        s'.getDiscreteVariable i dvi = .ok v ∧
        s'.currentSystemStage ≤ Stage.prev dv.invalidates ∧
        (dv.invalidates ≤ ss.stage →
          s'.getSubsystemStage i = .ok (Stage.prev dv.invalidates))) ∧
    (∀ v : AV,
      (State.init.runOps (c4Ops v)).bind
        (fun s => s.getSubsystemStage 0) = .ok Stage.Position ∧
      (State.init.runOps (c4Ops v)).bind
        (fun s => .ok s.currentSystemStage) = .ok Stage.Position ∧
      (State.init.runOps (c4Ops v)).bind
        (fun s => s.getDiscreteVarLastUpdateTime 0 0) = .ok 5 ∧
      (State.init.runOps (c4Ops v)).bind
        (fun s => s.getDiscreteVariable 0 0) = .ok v) := by
  refine ⟨fun s i dvi v => rfl, ?_, fun v => ⟨rfl, rfl, rfl, rfl⟩⟩
  intro s i dvi ss dv v hss hdv hsurv
  rcases State.updDiscreteVariable_fields v hss hdv hsurv with
    ⟨s', hok, hsys, hsub⟩
  have hdisc : (updateAt ss.discrete dvi
      (fun d => { d with value := v, lastUpdateTime := s.t }))[dvi]? =
      some { dv with value := v, lastUpdateTime := s.t } := by
    rw [updateAt_getElem?, if_pos rfl, hdv]
    rfl
  refine ⟨s', hok, ?_, ?_, ?_, ?_⟩
  · simp only [State.getDiscreteVarLastUpdateTime, hsub, hdisc]
  · simp only [State.getDiscreteVariable, hsub, hdisc]
  · rw [hsys]
    exact Stage.minStage_le_right _ _
  · intro hS
    simp only [State.getSubsystemStage, hsub]
    show Except.ok (ss.invalidateTo dv.invalidates).stage = _
    rw [Subsystem.invalidateTo_stage, Stage.minStage_prev_of_le hS]

/-- A `Velocity`-invalidating discrete variable allocated at `Empty`. -/
def demoWVar : DiscreteVar :=
  { allocationStage := Stage.Empty, invalidates := Stage.Velocity
    value := 1, lastUpdateTime := 0, autoUpdate := none }

/-- A subsystem at `Acceleration` owning `demoWVar`. -/
def demoWSub : Subsystem :=
  { Subsystem.fresh "w" "1" with
    stage := Stage.Acceleration
    discrete := [demoWVar] }

/-- A state at `Acceleration`, time 5, holding `demoWSub`. -/
def demoW : State :=
  { t := 5, currentSystemStage := Stage.Acceleration, subsystems := [demoWSub]
    y := [], nq := 0, nu := 0, nz := 0 }

theorem claimC4_witness :
    demoW.setDiscreteVariable 0 0 9 = demoW.updDiscreteVariable 0 0 9 ∧
    (∃ s', demoW.updDiscreteVariable 0 0 9 = .ok s' ∧
      s'.getDiscreteVarLastUpdateTime 0 0 = .ok 5 ∧
      s'.getDiscreteVariable 0 0 = .ok 9 ∧
      s'.currentSystemStage ≤ Stage.Position ∧
      s'.getSubsystemStage 0 = .ok Stage.Position) ∧
    (State.init.runOps (c4Ops 9)).bind
      (fun s => s.getSubsystemStage 0) = .ok Stage.Position := by
  refine ⟨claimC4_discrete_write.1 demoW 0 0 9, ?_,
    (claimC4_discrete_write.2.2 9).1⟩
  rcases claimC4_discrete_write.2.1 demoW 0 0 demoWSub demoWVar 9 rfl rfl
      (by decide) with ⟨s', hok, htime, hval, hsys, hstage⟩
  exact ⟨s', hok, htime, hval, hsys, hstage (by decide)⟩

theorem Subsystem.autoUpdate_stage (ss : Subsystem) :
    (ss.autoUpdate).stage = ss.stage := rfl

theorem Subsystem.autoUpdate_discrete_getElem? (ss : Subsystem) (dvi : Nat) :
    (ss.autoUpdate).discrete[dvi]? = (ss.discrete[dvi]?).map (fun dv =>
      match dv.autoUpdate with
      | none => dv
      | some cx =>
        match ss.cache[cx]? with
        | none => dv
        | some ce => if ce.valid then { dv with value := ce.value } else dv) := by
  rw [Subsystem.autoUpdate]
  exact List.getElem?_map _ _ _

theorem Subsystem.autoUpdate_cache_getElem? (ss : Subsystem) (cx : Nat) :
    (ss.autoUpdate).cache[cx]? = (ss.cache[cx]?).map (fun ce =>
      if ce.valid then
        match ss.discrete.find? (fun dv => decide (dv.autoUpdate = some cx)) with
        | none => ce
        | some dv => { ce with value := dv.value, valid := false }
      else ce) := by
  rw [Subsystem.autoUpdate]
  show (mapWithIdx _ 0 ss.cache)[cx]? = _
  rw [mapWithIdx_getElem?, Nat.zero_add]

/-- Auto-update scenario: one subsystem allocates an auto-update
discrete variable (initial value 10, `invalidates = Velocity`, update
dependency `Dynamics`), the state is advanced to `Dynamics`, the update
cache value is written and marked realized, then the swap pass runs. -/
def c3Ops (w : AV) : List Op :=
  [.addSubsystem "A" "1",
   .allocateAutoUpdateDiscreteVariable 0 Stage.Velocity 10 Stage.Dynamics] ++
    advanceBoth Stage.Dynamics ++
    [.updDiscreteVarUpdateValue 0 0 w, .markDiscreteVarUpdateValueRealized 0 0,
     .autoUpdateDiscreteVariables]

/-- The same scenario without writing or marking the update value. -/
def c3OpsIdle : List Op :=
  [.addSubsystem "A" "1",
   .allocateAutoUpdateDiscreteVariable 0 Stage.Velocity 10 Stage.Dynamics] ++
    advanceBoth Stage.Dynamics ++ [.autoUpdateDiscreteVariables]

/-- Claim C3: `autoUpdateDiscreteVariables()` processes every auto-update
discrete variable in one pass against the pre-pass cache contents: a
variable whose update cache entry is marked valid takes the cache value
while the entry takes the variable's old value and is marked invalid; a
variable whose entry is not marked valid (or which has no update entry)
is left unchanged; and no stage (and no time) is invalidated by the
swaps. -/
theorem claimC3_autoUpdate_swap :
    (∀ s : State, (s.autoUpdateDiscreteVariables).currentSystemStage =
        s.currentSystemStage ∧
      (s.autoUpdateDiscreteVariables).t = s.t ∧
      ∀ i : Nat, ((s.autoUpdateDiscreteVariables).subsystems[i]?).map
          Subsystem.stage = (s.subsystems[i]?).map Subsystem.stage) ∧
    (∀ (s : State) (i dvi cx : Nat) (ss : Subsystem) (dv : DiscreteVar)
        (ce : CacheEntry),
      s.subsystems[i]? = some ss → ss.discrete[dvi]? = some dv →
      dv.autoUpdate = some cx → ss.cache[cx]? = some ce → ce.valid = true →
      ∃ ss', (s.autoUpdateDiscreteVariables).subsystems[i]? = some ss' ∧
        ss'.discrete[dvi]? = some { dv with value := ce.value } ∧
        (ss.discrete.find? (fun d => decide (d.autoUpdate = some cx)) = some dv →
          ss'.cache[cx]? = some { ce with value := dv.value, valid := false })) ∧
    (∀ (s : State) (i dvi : Nat) (ss : Subsystem) (dv : DiscreteVar),
      s.subsystems[i]? = some ss → ss.discrete[dvi]? = some dv →
      dv.autoUpdate = none →
      ∃ ss', (s.autoUpdateDiscreteVariables).subsystems[i]? = some ss' ∧
        ss'.discrete[dvi]? = some dv) ∧
    (∀ (s : State) (i dvi cx : Nat) (ss : Subsystem) (dv : DiscreteVar)
        (ce : CacheEntry),
      s.subsystems[i]? = some ss → ss.discrete[dvi]? = some dv →
      dv.autoUpdate = some cx → ss.cache[cx]? = some ce → ce.valid = false →
      ∃ ss', (s.autoUpdateDiscreteVariables).subsystems[i]? = some ss' ∧
        ss'.discrete[dvi]? = some dv) ∧
    (∀ w : AV,
      (State.init.runOps (c3Ops w)).bind
        (fun s => s.getDiscreteVariable 0 0) = .ok w ∧
      (State.init.runOps (c3Ops w)).bind
        (fun s => s.isDiscreteVarUpdateValueRealized 0 0) = .ok false ∧
      (State.init.runOps (c3Ops w)).bind
        (fun s => .ok s.currentSystemStage) = .ok Stage.Dynamics ∧
      (State.init.runOps c3OpsIdle).bind
        (fun s => s.getDiscreteVariable 0 0) = .ok 10) := by
  refine ⟨?_, ?_, ?_, ?_, fun w => ⟨rfl, rfl, rfl, rfl⟩⟩
  · intro s
    refine ⟨rfl, rfl, fun i => ?_⟩
    show ((s.subsystems.map Subsystem.autoUpdate)[i]?).map Subsystem.stage = _
    rw [List.getElem?_map]
    cases s.subsystems[i]? <;> rfl
  · intro s i dvi cx ss dv ce hss hdv hau hce hval
    refine ⟨ss.autoUpdate, ?_, ?_, ?_⟩
    · show (s.subsystems.map Subsystem.autoUpdate)[i]? = _
      rw [List.getElem?_map, hss]
      rfl
    · rw [Subsystem.autoUpdate_discrete_getElem?, hdv]
      simp [hau, hce, hval]
    · intro hfind
      rw [Subsystem.autoUpdate_cache_getElem?, hce]
      simp [hval, hfind]
  · intro s i dvi ss dv hss hdv hau
    refine ⟨ss.autoUpdate, ?_, ?_⟩
    · show (s.subsystems.map Subsystem.autoUpdate)[i]? = _
      rw [List.getElem?_map, hss]
      rfl
    · rw [Subsystem.autoUpdate_discrete_getElem?, hdv]
      simp [hau]
  · intro s i dvi cx ss dv ce hss hdv hau hce hval
    refine ⟨ss.autoUpdate, ?_, ?_⟩
    · show (s.subsystems.map Subsystem.autoUpdate)[i]? = _
      rw [List.getElem?_map, hss]
      rfl
    · rw [Subsystem.autoUpdate_discrete_getElem?, hdv]
      simp [hau, hce, hval]

/-- An auto-update discrete variable whose update entry is cache slot 0. -/
def demoAUVar : DiscreteVar :=
  { allocationStage := Stage.Empty, invalidates := Stage.Velocity
    value := 10, lastUpdateTime := 0, autoUpdate := some 0 }

/-- The associated update cache entry, marked valid with pending value 77. -/
def demoAUCE : CacheEntry :=
  { allocationStage := Stage.Empty, earliest := Stage.Dynamics
    latest := Stage.Infinity, value := 77, valid := true }

/-- A subsystem at `Dynamics` owning `demoAUVar` and `demoAUCE`. -/
def demoAUSub : Subsystem :=
  { Subsystem.fresh "au" "1" with
    stage := Stage.Dynamics
    discrete := [demoAUVar]
    cache := [demoAUCE] }

/-- A state holding `demoAUSub`. -/
def demoAU : State :=
  { t := 0, currentSystemStage := Stage.Dynamics, subsystems := [demoAUSub]
    y := [], nq := 0, nu := 0, nz := 0 }

theorem claimC3_witness :
    ((demoAU.autoUpdateDiscreteVariables).currentSystemStage =
      demoAU.currentSystemStage) ∧
    (∃ ss', (demoAU.autoUpdateDiscreteVariables).subsystems[0]? = some ss' ∧
      ss'.discrete[0]? = some { demoAUVar with value := 77 } ∧
      ss'.cache[0]? = some { demoAUCE with value := 10, valid := false }) ∧
    (State.init.runOps (c3Ops 77)).bind
      (fun s => s.getDiscreteVariable 0 0) = .ok 77 := by
  refine ⟨(claimC3_autoUpdate_swap.1 demoAU).1, ?_,
    (claimC3_autoUpdate_swap.2.2.2.2 77).1⟩
  rcases claimC3_autoUpdate_swap.2.1 demoAU 0 0 0 demoAUSub demoAUVar demoAUCE
      rfl rfl rfl rfl rfl with ⟨ss', hss', hdv', hce'⟩
  exact ⟨ss', hss', hdv', hce' rfl⟩

theorem Stage.minStage_mono_left {a b : Stage} (c : Stage) (h : a ≤ b) :
    Stage.minStage a c ≤ Stage.minStage b c := by
  revert h; revert a b c; decide

theorem stageInv_withSub_mono {s : State} {i : Nat}
    {f : Subsystem → Except Err Subsystem} {s' : State}
    (hf : ∀ ss ss', f ss = .ok ss' → ss.stage ≤ ss'.stage)
    (hs : StageInvariant s) (h : s.withSub i f = .ok s') :
    StageInvariant s' := by
  rcases State.withSub_ok h with ⟨ss, ssb, hss, hfs, rfl⟩
  intro x hx
  show s.currentSystemStage ≤ x.stage
  rcases mem_updateAt hx with hx' | ⟨a, ha, hxa⟩
  · exact hs x hx'
  · rw [hxa]
    exact Stage.le_trans (hs ss (List.getElem?_mem hss)) (hf ss ssb hfs)

theorem stageInv_invalidateAll {s : State} (g : Stage)
    (hs : StageInvariant s) : StageInvariant (s.invalidateAll g) := by
  intro x hx
  rw [State.invalidateAll_subsystems] at hx
  rcases List.mem_map.mp hx with ⟨ss, hss, rfl⟩
  rw [State.invalidateAll_sysStage, Subsystem.invalidateTo_stage]
  exact Stage.minStage_mono_left _ (hs ss hss)

theorem stageInv_updateAt_pres {s : State} {i : Nat}
    {f : Subsystem → Subsystem} (hf : ∀ ss, (f ss).stage = ss.stage)
    (hs : StageInvariant s) :
    StageInvariant { s with subsystems := updateAt s.subsystems i f } := by
  intro x hx
  show s.currentSystemStage ≤ x.stage
  rcases mem_updateAt hx with hx' | ⟨a, ha, rfl⟩
  · exact hs x hx'
  · rw [hf a]
    exact hs a ha

theorem mem_assignOffsets {ss' : Subsystem} :
    ∀ {qo uo zo : Nat} {l : List Subsystem},
    ss' ∈ State.assignOffsets qo uo zo l → ∃ ss ∈ l, ss'.stage = ss.stage
  | qo, uo, zo, [], h => by simp [State.assignOffsets] at h
  | qo, uo, zo, a :: l, h => by
    rcases List.mem_cons.mp h with rfl | h'
    · exact ⟨a, List.mem_cons_self a l, rfl⟩
    · rcases mem_assignOffsets h' with ⟨ss, hss, he⟩
      exact ⟨ss, List.mem_cons_of_mem a hss, he⟩

theorem State.advanceSystemToStage_ok_conditions {s : State} {g : Stage}
    {s' : State} (h : s.advanceSystemToStage g = .ok s') :
    g = Stage.next s.currentSystemStage ∧ ¬g = Stage.Infinity ∧
      (∀ ss ∈ s.subsystems, g ≤ ss.stage) ∧
      s'.currentSystemStage = g ∧
      (∀ x ∈ s'.subsystems, ∃ ss ∈ s.subsystems, x.stage = ss.stage) := by
  rw [State.advanceSystemToStage] at h
  split at h
  · rename_i hc
    have hall : ∀ ss ∈ s.subsystems, g ≤ ss.stage := by
      intro ss hss
      have := List.all_eq_true.mp hc.2.2 ss hss
      exact of_decide_eq_true this
    refine ⟨hc.1, hc.2.1, hall, ?_, ?_⟩
    · cases h
      split
      · rfl
      · rfl
    · cases h
      split
      · rename_i hg
        intro x hx
        rw [State.realizeModelPass_subsystems] at hx
        exact mem_assignOffsets hx
      · intro x hx
        exact ⟨x, hx, rfl⟩
  · cases h

theorem stageInv_advanceSystemToStage {s : State} {g : Stage} {s' : State}
    (hs : StageInvariant s) (h : s.advanceSystemToStage g = .ok s') :
    StageInvariant s' := by
  rcases State.advanceSystemToStage_ok_conditions h with
    ⟨_, _, hall, hcss, hsub⟩
  intro x hx
  rcases hsub x hx with ⟨ss, hss, hstage⟩
  rw [hcss, hstage]
  exact hall ss hss

/-- Claim C1: the empty state satisfies the global-stage invariant, every
public operation preserves it (so the global stage never exceeds the
minimum subsystem stage), and `advanceSystemToStage(g)` succeeds only
when every subsystem is already at or above `g`. -/
theorem claimC1_globalStage_invariant :
    StageInvariant State.init ∧
    (∀ (s : State) (op : Op) (s' : State),
      StageInvariant s → s.step op = .ok s' → StageInvariant s') ∧
    (∀ (s : State) (g : Stage) (s' : State),
      s.advanceSystemToStage g = .ok s' → ∀ ss ∈ s.subsystems, g ≤ ss.stage) := by
  refine ⟨fun ss hss => absurd hss (List.not_mem_nil ss), ?_,
    fun s g s' h => (State.advanceSystemToStage_ok_conditions h).2.2.1⟩
  intro s op s' hs h
  cases op with
  | addSubsystem nm ver =>
    simp only [State.step, State.addSubsystem] at h
    split at h
    · rename_i hE
      cases h
      intro x hx
      show s.currentSystemStage ≤ x.stage
      rcases List.mem_append.mp hx with hx' | hx'
      · exact hs x hx'
      · rw [List.mem_singleton.mp hx', hE]
        exact Stage.empty_le _
    · cases h
  | advanceSubsystemToStage i g =>
    simp only [State.step, State.advanceSubsystemToStage] at h
    refine stageInv_withSub_mono ?_ hs h
    intro ss ss2 hf2
    split at hf2
    · rename_i hc
      cases hf2
      show ss.stage ≤ g
      rw [hc.1]
      exact Stage.le_next ss.stage
    · cases hf2
  | advanceSystemToStage g =>
    exact stageInv_advanceSystemToStage hs h
  | invalidateAll g =>
    simp only [State.step] at h
    cases h
    exact stageInv_invalidateAll g hs
  | invalidateAllCacheAtOrAbove g =>
    simp only [State.step, State.invalidateAllCacheAtOrAbove] at h
    split at h
    · cases h
      exact stageInv_invalidateAll g hs
    · cases h
  | allocateQ i qInit =>
    simp only [State.step, State.allocateQ] at h
    refine stageInv_withSub_mono ?_ hs h
    intro ss ss2 hf2
    split at hf2
    · cases hf2
      exact Stage.le_refl ss.stage
    · cases hf2
  | allocateU i uInit =>
    simp only [State.step, State.allocateU] at h
    refine stageInv_withSub_mono ?_ hs h
    intro ss ss2 hf2
    split at hf2
    · cases hf2
      exact Stage.le_refl ss.stage
    · cases hf2
  | allocateZ i zInit =>
    simp only [State.step, State.allocateZ] at h
    refine stageInv_withSub_mono ?_ hs h
    intro ss ss2 hf2
    split at hf2
    · cases hf2
      exact Stage.le_refl ss.stage
    · cases hf2
  | allocateDiscreteVariable i inv v =>
    simp only [State.step, State.allocateDiscreteVariable] at h
    refine stageInv_withSub_mono ?_ hs h
    intro ss ss2 hf2
    split at hf2
    · cases hf2
      exact Stage.le_refl ss.stage
    · cases hf2
  | allocateAutoUpdateDiscreteVariable i inv v dep =>
    simp only [State.step, State.allocateAutoUpdateDiscreteVariable] at h
    refine stageInv_withSub_mono ?_ hs h
    intro ss ss2 hf2
    split at hf2
    · cases hf2
      exact Stage.le_refl ss.stage
    · cases hf2
  | allocateCacheEntry i e l v =>
    simp only [State.step, State.allocateCacheEntry] at h
    refine stageInv_withSub_mono ?_ hs h
    intro ss ss2 hf2
    split at hf2
    · cases hf2
      exact Stage.le_refl ss.stage
    · cases hf2
  | allocateLazyCacheEntry i e v =>
    simp only [State.step, State.allocateLazyCacheEntry,
      State.allocateCacheEntry] at h
    refine stageInv_withSub_mono ?_ hs h
    intro ss ss2 hf2
    split at hf2
    · cases hf2
      exact Stage.le_refl ss.stage
    · cases hf2
  | updDiscreteVariable i dvi v =>
    simp only [State.step] at h
    cases hss : s.subsystems[i]? with
    | none =>
      simp only [State.updDiscreteVariable, hss] at h
      exact Except.noConfusion h
    | some ss =>
      cases hdv : ss.discrete[dvi]? with
      | none =>
        simp only [State.updDiscreteVariable, hss, hdv] at h
        exact Except.noConfusion h
      | some dv =>
        simp only [State.updDiscreteVariable, hss, hdv] at h
        cases h
        exact stageInv_updateAt_pres (fun ss₁ => rfl)
          (stageInv_invalidateAll dv.invalidates hs)
  | setDiscreteVariable i dvi v =>
    simp only [State.step, State.setDiscreteVariable] at h
    cases hss : s.subsystems[i]? with
    | none =>
      simp only [State.updDiscreteVariable, hss] at h
      exact Except.noConfusion h
    | some ss =>
      cases hdv : ss.discrete[dvi]? with
      | none =>
        simp only [State.updDiscreteVariable, hss, hdv] at h
        exact Except.noConfusion h
      | some dv =>
        simp only [State.updDiscreteVariable, hss, hdv] at h
        cases h
        exact stageInv_updateAt_pres (fun ss₁ => rfl)
          (stageInv_invalidateAll dv.invalidates hs)
  | updCacheEntry i cx v =>
    simp only [State.step, State.updCacheEntry] at h
    refine stageInv_withSub_mono ?_ hs h
    intro ss ss2 hf2
    cases hx : ss.cache[cx]? <;> simp only [hx] at hf2
    · cases hf2
    · split at hf2
      · cases hf2
        exact Stage.le_refl ss.stage
      · cases hf2
  | markCacheValueRealized i cx =>
    simp only [State.step, State.markCacheValueRealized] at h
    refine stageInv_withSub_mono ?_ hs h
    intro ss ss2 hf2
    cases hx : ss.cache[cx]? <;> simp only [hx] at hf2
    · cases hf2
    · split at hf2
      · cases hf2
        exact Stage.le_refl ss.stage
      · cases hf2
  | markCacheValueNotRealized i cx =>
    simp only [State.step, State.markCacheValueNotRealized] at h
    refine stageInv_withSub_mono ?_ hs h
    intro ss ss2 hf2
    cases hx : ss.cache[cx]? <;> simp only [hx] at hf2
    · cases hf2
    · cases hf2
      exact Stage.le_refl ss.stage
  | markDiscreteVarUpdateValueRealized i dvi =>
    simp only [State.step, State.markDiscreteVarUpdateValueRealized] at h
    cases hss : s.subsystems[i]? with
    | none =>
      simp only [hss] at h
      exact Except.noConfusion h
    | some ss =>
      cases hdv : ss.discrete[dvi]? with
      | none =>
        simp only [hss, hdv] at h
        exact Except.noConfusion h
      | some dv =>
        cases hau : dv.autoUpdate with
        | none =>
          simp only [hss, hdv, hau] at h
          exact Except.noConfusion h
        | some cx =>
          simp only [hss, hdv, hau, State.markCacheValueRealized] at h
          refine stageInv_withSub_mono ?_ hs h
          intro ss1 ss2 hf2
          cases hx : ss1.cache[cx]? <;> simp only [hx] at hf2
          · cases hf2
          · split at hf2
            · cases hf2
              exact Stage.le_refl ss1.stage
            · cases hf2
  | updDiscreteVarUpdateValue i dvi v =>
    simp only [State.step, State.updDiscreteVarUpdateValue] at h
    cases hss : s.subsystems[i]? with
    | none =>
      simp only [hss] at h
      exact Except.noConfusion h
    | some ss =>
      cases hdv : ss.discrete[dvi]? with
      | none =>
        simp only [hss, hdv] at h
        exact Except.noConfusion h
      | some dv =>
        cases hau : dv.autoUpdate with
        | none =>
          simp only [hss, hdv, hau] at h
          exact Except.noConfusion h
        | some cx =>
          simp only [hss, hdv, hau, State.updCacheEntry] at h
          refine stageInv_withSub_mono ?_ hs h
          intro ss1 ss2 hf2
          cases hx : ss1.cache[cx]? <;> simp only [hx] at hf2
          · cases hf2
          · split at hf2
            · cases hf2
              exact Stage.le_refl ss1.stage
            · cases hf2
  | autoUpdateDiscreteVariables =>
    simp only [State.step] at h
    cases h
    intro x hx
    rcases List.mem_map.mp hx with ⟨ss, hss, hxa⟩
    show s.currentSystemStage ≤ x.stage
    rw [← hxa, Subsystem.autoUpdate_stage]
    exact hs ss hss
  | updTime =>
    simp only [State.step, State.updTime] at h
    split at h
    · cases h
      exact stageInv_invalidateAll Stage.Time hs
    · cases h
  | updQ =>
    simp only [State.step, State.updQ] at h
    split at h
    · cases h
      exact stageInv_invalidateAll Stage.Position hs
    · cases h
  | updU =>
    simp only [State.step, State.updU] at h
    split at h
    · cases h
      exact stageInv_invalidateAll Stage.Velocity hs
    · cases h
  | updZ =>
    simp only [State.step, State.updZ] at h
    split at h
    · cases h
      exact stageInv_invalidateAll Stage.Dynamics hs
    · cases h
  | updY =>
    simp only [State.step, State.updY] at h
    split at h
    · cases h
      exact stageInv_invalidateAll Stage.Dynamics hs
    · cases h
  | setTime v =>
    simp only [State.step, State.setTime, State.updTime] at h
    split at h
    · exact Except.noConfusion h
    · rename_i s₁ heq
      cases h
      split at heq
      · cases heq
        exact fun x hx => stageInv_invalidateAll Stage.Time hs x hx
      · exact Except.noConfusion heq
  | setQ v =>
    simp only [State.step, State.setQ, State.updQ] at h
    split at h
    · split at h
      · exact Except.noConfusion h
      · rename_i s₁ heq
        cases h
        split at heq
        · cases heq
          exact fun x hx => stageInv_invalidateAll Stage.Position hs x hx
        · exact Except.noConfusion heq
    · exact Except.noConfusion h
  | setU v =>
    simp only [State.step, State.setU, State.updU] at h
    split at h
    · split at h
      · exact Except.noConfusion h
      · rename_i s₁ heq
        cases h
        split at heq
        · cases heq
          exact fun x hx => stageInv_invalidateAll Stage.Velocity hs x hx
        · exact Except.noConfusion heq
    · exact Except.noConfusion h
  | setZ v =>
    simp only [State.step, State.setZ, State.updZ] at h
    split at h
    · split at h
      · exact Except.noConfusion h
      · rename_i s₁ heq
        cases h
        split at heq
        · cases heq
          exact fun x hx => stageInv_invalidateAll Stage.Dynamics hs x hx
        · exact Except.noConfusion heq
    · exact Except.noConfusion h
  | setY v =>
    simp only [State.step, State.setY, State.updY] at h
    split at h
    · split at h
      · exact Except.noConfusion h
      · rename_i s₁ heq
        cases h
        split at heq
        · cases heq
          exact fun x hx => stageInv_invalidateAll Stage.Dynamics hs x hx
        · exact Except.noConfusion heq
    · exact Except.noConfusion h

theorem claimC1_witness :
    StageInvariant State.init ∧
    (∃ s', State.init.step (.addSubsystem "A" "1") = .ok s' ∧
      StageInvariant s') ∧
    (∀ s', demoPre.advanceSystemToStage Stage.Model = .ok s' →
      ∀ ss ∈ demoPre.subsystems, Stage.Model ≤ ss.stage) := by
  refine ⟨claimC1_globalStage_invariant.1, ?_, ?_⟩
  · exact ⟨_, rfl, claimC1_globalStage_invariant.2.1 State.init
      (.addSubsystem "A" "1") _ claimC1_globalStage_invariant.1 rfl⟩
  · intro s' h
    exact claimC1_globalStage_invariant.2.2 demoPre Stage.Model s' h

/-- Per-subsystem allocation-stage bounds: discrete variables are
allocated below `Model`, cache entries below `Instance`. -/
def SubAlloc (ss : Subsystem) : Prop :=
  (∀ dv ∈ ss.discrete, dv.allocationStage < Stage.Model) ∧
  (∀ ce ∈ ss.cache, ce.allocationStage < Stage.Instance)

/-- The allocation-stage invariant over the whole state. -/
def WellAllocated (s : State) : Prop :=
  ∀ ss ∈ s.subsystems, SubAlloc ss

theorem mem_mapWithIdx {f : Nat → α → β} {b : β} :
    ∀ {n : Nat} {l : List α}, b ∈ mapWithIdx f n l → ∃ m a, a ∈ l ∧ b = f m a
  | n, [], h => by simp [mapWithIdx] at h
  | n, a :: l, h => by
    rcases List.mem_cons.mp h with hb | hb
    · exact ⟨n, a, List.mem_cons_self a l, hb⟩
    · rcases mem_mapWithIdx hb with ⟨m, a', ha', he⟩
      exact ⟨m, a', List.mem_cons_of_mem a ha', he⟩

theorem mem_assignOffsets_resources {ss' : Subsystem} :
    ∀ {qo uo zo : Nat} {l : List Subsystem},
    ss' ∈ State.assignOffsets qo uo zo l →
      ∃ ss ∈ l, ss'.discrete = ss.discrete ∧ ss'.cache = ss.cache
  | qo, uo, zo, [], h => by simp [State.assignOffsets] at h
  | qo, uo, zo, a :: l, h => by
    rcases List.mem_cons.mp h with rfl | h'
    · exact ⟨a, List.mem_cons_self a l, rfl, rfl⟩
    · rcases mem_assignOffsets_resources h' with ⟨ss, hss, he⟩
      exact ⟨ss, List.mem_cons_of_mem a hss, he⟩

theorem subAlloc_invalidateTo {ss : Subsystem} (g : Stage)
    (hp : SubAlloc ss) : SubAlloc (ss.invalidateTo g) := by
  rw [Subsystem.invalidateTo]
  split
  · constructor
    · intro dv hdv
      exact hp.1 dv (List.mem_filter.mp hdv).1
    · intro ce hce
      rcases List.mem_map.mp hce with ⟨c, hc, hcc⟩
      have hca : ce.allocationStage = c.allocationStage := by
        rw [← hcc]
        split <;> rfl
      rw [hca]
      exact hp.2 c (List.mem_filter.mp hc).1
  · exact hp

theorem wellAlloc_invalidateAll {s : State} (g : Stage)
    (hs : WellAllocated s) : WellAllocated (s.invalidateAll g) := by
  intro x hx
  rw [State.invalidateAll_subsystems] at hx
  rcases List.mem_map.mp hx with ⟨ss, hss, hxa⟩
  rw [← hxa]
  exact subAlloc_invalidateTo g (hs ss hss)

theorem wellAlloc_withSub {s : State} {i : Nat}
    {f : Subsystem → Except Err Subsystem} {s' : State}
    (hf : ∀ ss ss', SubAlloc ss → f ss = .ok ss' → SubAlloc ss')
    (hs : WellAllocated s) (h : s.withSub i f = .ok s') :
    WellAllocated s' := by
  rcases State.withSub_ok h with ⟨ss, ssb, hss, hfs, rfl⟩
  intro x hx
  show SubAlloc x
  rcases mem_updateAt hx with hx' | ⟨a, ha, hxa⟩
  · exact hs x hx'
  · rw [hxa]
    exact hf ss ssb (hs ss (List.getElem?_mem hss)) hfs

theorem wellAlloc_updateAt_pres {s : State} {i : Nat}
    {f : Subsystem → Subsystem} (hf : ∀ ss, SubAlloc ss → SubAlloc (f ss))
    (hs : WellAllocated s) :
    WellAllocated { s with subsystems := updateAt s.subsystems i f } := by
  intro x hx
  show SubAlloc x
  rcases mem_updateAt hx with hx' | ⟨a, ha, hxa⟩
  · exact hs x hx'
  · rw [hxa]
    exact hf a (hs a ha)

theorem subAlloc_autoUpdate {ss : Subsystem} (hp : SubAlloc ss) :
    SubAlloc ss.autoUpdate := by
  constructor
  · intro dv hdv
    rcases List.mem_map.mp hdv with ⟨d, hd, hdd⟩
    have : dv.allocationStage = d.allocationStage := by
      rw [← hdd]
      cases hau : d.autoUpdate with
      | none => simp only [hau]
      | some cx =>
        simp only [hau]
        cases hc2 : ss.cache[cx]? with
        | none => simp only [hc2]
        | some ce =>
          simp only [hc2]
          split <;> rfl
    rw [this]
    exact hp.1 d hd
  · intro ce hce
    rcases mem_mapWithIdx hce with ⟨m, c, hc, hcc⟩
    have : ce.allocationStage = c.allocationStage := by
      rw [hcc]
      cases hv : c.valid with
      | false => simp only [hv, if_neg Bool.false_ne_true]
      | true =>
        cases hfd : ss.discrete.find? (fun dv => decide (dv.autoUpdate = some m)) with
        | none => simp [hv, hfd]
        | some dv => simp [hv, hfd]
    rw [this]
    exact hp.2 c hc

theorem Stage.lt_instance_of_lt_model {a : Stage} (h : a < Stage.Model) :
    a < Stage.Instance := by
  revert h; revert a; decide

theorem subAlloc_append_discrete {ss : Subsystem} {dv : DiscreteVar}
    (hp : SubAlloc ss) (hdv : dv.allocationStage < Stage.Model) :
    SubAlloc { ss with discrete := ss.discrete ++ [dv] } := by
  constructor
  · intro d hd
    rcases List.mem_append.mp hd with h' | h'
    · exact hp.1 d h'
    · rw [List.mem_singleton.mp h']
      exact hdv
  · intro ce hce
    exact hp.2 ce hce

theorem wellAlloc_step {s : State} {op : Op} {s' : State}
    (hs : WellAllocated s) (h : s.step op = .ok s') : WellAllocated s' := by
  cases op with
  | addSubsystem nm ver =>
    simp only [State.step, State.addSubsystem] at h
    split at h
    · cases h
      intro x hx
      rcases List.mem_append.mp hx with hx' | hx'
      · exact hs x hx'
      · rw [List.mem_singleton.mp hx']
        exact ⟨fun dv hdv => absurd hdv (List.not_mem_nil dv),
          fun ce hce => absurd hce (List.not_mem_nil ce)⟩
    · cases h
  | advanceSubsystemToStage i g =>
    simp only [State.step, State.advanceSubsystemToStage] at h
    refine wellAlloc_withSub ?_ hs h
    intro ss ss2 hp hf2
    split at hf2
    · cases hf2
      exact hp
    · cases hf2
  | advanceSystemToStage g =>
    simp only [State.step, State.advanceSystemToStage] at h
    split at h
    · cases h
      split
      · intro x hx
        rw [State.realizeModelPass_subsystems] at hx
        rcases mem_assignOffsets_resources hx with ⟨ss, hss, hd, hc⟩
        show (∀ dv ∈ x.discrete, dv.allocationStage < Stage.Model) ∧
          (∀ ce ∈ x.cache, ce.allocationStage < Stage.Instance)
        rw [hd, hc]
        exact hs ss hss
      · intro x hx
        exact hs x hx
    · cases h
  | invalidateAll g =>
    simp only [State.step] at h
    cases h
    exact wellAlloc_invalidateAll g hs
  | invalidateAllCacheAtOrAbove g =>
    simp only [State.step, State.invalidateAllCacheAtOrAbove] at h
    split at h
    · cases h
      exact wellAlloc_invalidateAll g hs
    · cases h
  | allocateQ i qInit =>
    simp only [State.step, State.allocateQ] at h
    refine wellAlloc_withSub ?_ hs h
    intro ss ss2 hp hf2
    split at hf2
    · cases hf2
      exact hp
    · cases hf2
  | allocateU i uInit =>
    simp only [State.step, State.allocateU] at h
    refine wellAlloc_withSub ?_ hs h
    intro ss ss2 hp hf2
    split at hf2
    · cases hf2
      exact hp
    · cases hf2
  | allocateZ i zInit =>
    simp only [State.step, State.allocateZ] at h
    refine wellAlloc_withSub ?_ hs h
    intro ss ss2 hp hf2
    split at hf2
    · cases hf2
      exact hp
    · cases hf2
  | allocateDiscreteVariable i inv v =>
    simp only [State.step, State.allocateDiscreteVariable] at h
    refine wellAlloc_withSub ?_ hs h
    intro ss ss2 hp hf2
    split at hf2
    · rename_i hcond
      cases hf2
      exact subAlloc_append_discrete hp hcond
    · cases hf2
  | allocateAutoUpdateDiscreteVariable i inv v dep =>
    simp only [State.step, State.allocateAutoUpdateDiscreteVariable] at h
    refine wellAlloc_withSub ?_ hs h
    intro ss ss2 hp hf2
    split at hf2
    · rename_i hcond
      cases hf2
      constructor
      · intro d hd
        rcases List.mem_append.mp hd with h' | h'
        · exact hp.1 d h'
        · rw [List.mem_singleton.mp h']
          exact hcond.1
      · intro ce hce
        rcases List.mem_append.mp hce with h' | h'
        · exact hp.2 ce h'
        · rw [List.mem_singleton.mp h']
          exact Stage.lt_instance_of_lt_model hcond.1
    · cases hf2
  | allocateCacheEntry i e l v =>
    simp only [State.step, State.allocateCacheEntry] at h
    refine wellAlloc_withSub ?_ hs h
    intro ss ss2 hp hf2
    split at hf2
    · rename_i hcond
      cases hf2
      constructor
      · intro d hd
        exact hp.1 d hd
      · intro ce hce
        rcases List.mem_append.mp hce with h' | h'
        · exact hp.2 ce h'
        · rw [List.mem_singleton.mp h']
          exact hcond
    · cases hf2
  | allocateLazyCacheEntry i e v =>
    simp only [State.step, State.allocateLazyCacheEntry,
      State.allocateCacheEntry] at h
    refine wellAlloc_withSub ?_ hs h
    intro ss ss2 hp hf2
    split at hf2
    · rename_i hcond
      cases hf2
      constructor
      · intro d hd
        exact hp.1 d hd
      · intro ce hce
        rcases List.mem_append.mp hce with h' | h'
        · exact hp.2 ce h'
        · rw [List.mem_singleton.mp h']
          exact hcond
    · cases hf2
  | updDiscreteVariable i dvi v =>
    simp only [State.step] at h
    cases hss : s.subsystems[i]? with
    | none =>
      simp only [State.updDiscreteVariable, hss] at h
      exact Except.noConfusion h
    | some ss =>
      cases hdv : ss.discrete[dvi]? with
      | none =>
        simp only [State.updDiscreteVariable, hss, hdv] at h
        exact Except.noConfusion h
      | some dv =>
        simp only [State.updDiscreteVariable, hss, hdv] at h
        cases h
        refine wellAlloc_updateAt_pres ?_
          (wellAlloc_invalidateAll dv.invalidates hs)
        intro ss₁ hp
        constructor
        · intro d hd
          rcases mem_updateAt hd with h' | ⟨a, ha, haa⟩
          · exact hp.1 d h'
          · rw [haa]
            exact hp.1 a ha
        · intro ce hce
          exact hp.2 ce hce
  | setDiscreteVariable i dvi v =>
    simp only [State.step, State.setDiscreteVariable] at h
    cases hss : s.subsystems[i]? with
    | none =>
      simp only [State.updDiscreteVariable, hss] at h
      exact Except.noConfusion h
    | some ss =>
      cases hdv : ss.discrete[dvi]? with
      | none =>
        simp only [State.updDiscreteVariable, hss, hdv] at h
        exact Except.noConfusion h
      | some dv =>
        simp only [State.updDiscreteVariable, hss, hdv] at h
        cases h
        refine wellAlloc_updateAt_pres ?_
          (wellAlloc_invalidateAll dv.invalidates hs)
        intro ss₁ hp
        constructor
        · intro d hd
          rcases mem_updateAt hd with h' | ⟨a, ha, haa⟩
          · exact hp.1 d h'
          · rw [haa]
            exact hp.1 a ha
        · intro ce hce
          exact hp.2 ce hce
  | updCacheEntry i cx v =>
    simp only [State.step, State.updCacheEntry] at h
    refine wellAlloc_withSub ?_ hs h
    intro ss ss2 hp hf2
    cases hx : ss.cache[cx]? <;> simp only [hx] at hf2
    · exact Except.noConfusion hf2
    · split at hf2
      · cases hf2
        refine ⟨hp.1, ?_⟩
        intro ce hce
        rcases mem_updateAt hce with h' | ⟨c, hc, hcc⟩
        · exact hp.2 ce h'
        · rw [hcc]
          exact hp.2 c hc
      · cases hf2
  | markCacheValueRealized i cx =>
    simp only [State.step, State.markCacheValueRealized] at h
    refine wellAlloc_withSub ?_ hs h
    intro ss ss2 hp hf2
    cases hx : ss.cache[cx]? <;> simp only [hx] at hf2
    · exact Except.noConfusion hf2
    · split at hf2
      · cases hf2
        refine ⟨hp.1, ?_⟩
        intro ce hce
        rcases mem_updateAt hce with h' | ⟨c, hc, hcc⟩
        · exact hp.2 ce h'
        · rw [hcc]
          exact hp.2 c hc
      · cases hf2
  | markCacheValueNotRealized i cx =>
    simp only [State.step, State.markCacheValueNotRealized] at h
    refine wellAlloc_withSub ?_ hs h
    intro ss ss2 hp hf2
    cases hx : ss.cache[cx]? <;> simp only [hx] at hf2
    · exact Except.noConfusion hf2
    · cases hf2
      refine ⟨hp.1, ?_⟩
      intro ce hce
      rcases mem_updateAt hce with h' | ⟨c, hc, hcc⟩
      · exact hp.2 ce h'
      · rw [hcc]
        exact hp.2 c hc
  | markDiscreteVarUpdateValueRealized i dvi =>
    simp only [State.step, State.markDiscreteVarUpdateValueRealized] at h
    cases hss : s.subsystems[i]? with
    | none =>
      simp only [hss] at h
      exact Except.noConfusion h
    | some ss =>
      cases hdv : ss.discrete[dvi]? with
      | none =>
        simp only [hss, hdv] at h
        exact Except.noConfusion h
      | some dv =>
        cases hau : dv.autoUpdate with
        | none =>
          simp only [hss, hdv, hau] at h
          exact Except.noConfusion h
        | some cx =>
          simp only [hss, hdv, hau, State.markCacheValueRealized] at h
          refine wellAlloc_withSub ?_ hs h
          intro ss1 ss2 hp hf2
          cases hx : ss1.cache[cx]? <;> simp only [hx] at hf2
          · exact Except.noConfusion hf2
          · split at hf2
            · cases hf2
              refine ⟨hp.1, ?_⟩
              intro ce hce
              rcases mem_updateAt hce with h' | ⟨c, hc, hcc⟩
              · exact hp.2 ce h'
              · rw [hcc]
                exact hp.2 c hc
            · cases hf2
  | updDiscreteVarUpdateValue i dvi v =>
    simp only [State.step, State.updDiscreteVarUpdateValue] at h
    cases hss : s.subsystems[i]? with
    | none =>
      simp only [hss] at h
      exact Except.noConfusion h
    | some ss =>
      cases hdv : ss.discrete[dvi]? with
      | none =>
        simp only [hss, hdv] at h
        exact Except.noConfusion h
      | some dv =>
        cases hau : dv.autoUpdate with
        | none =>
          simp only [hss, hdv, hau] at h
          exact Except.noConfusion h
        | some cx =>
          simp only [hss, hdv, hau, State.updCacheEntry] at h
          refine wellAlloc_withSub ?_ hs h
          intro ss1 ss2 hp hf2
          cases hx : ss1.cache[cx]? <;> simp only [hx] at hf2
          · exact Except.noConfusion hf2
          · split at hf2
            · cases hf2
              refine ⟨hp.1, ?_⟩
              intro ce hce
              rcases mem_updateAt hce with h' | ⟨c, hc, hcc⟩
              · exact hp.2 ce h'
              · rw [hcc]
                exact hp.2 c hc
            · cases hf2
  | autoUpdateDiscreteVariables =>
    simp only [State.step] at h
    cases h
    intro x hx
    rcases List.mem_map.mp hx with ⟨ss, hss, hxa⟩
    rw [← hxa]
    exact subAlloc_autoUpdate (hs ss hss)
  | updTime =>
    simp only [State.step, State.updTime] at h
    split at h
    · cases h
      exact wellAlloc_invalidateAll Stage.Time hs
    · cases h
  | updQ =>
    simp only [State.step, State.updQ] at h
    split at h
    · cases h
      exact wellAlloc_invalidateAll Stage.Position hs
    · cases h
  | updU =>
    simp only [State.step, State.updU] at h
    split at h
    · cases h
      exact wellAlloc_invalidateAll Stage.Velocity hs
    · cases h
  | updZ =>
    simp only [State.step, State.updZ] at h
    split at h
    · cases h
      exact wellAlloc_invalidateAll Stage.Dynamics hs
    · cases h
  | updY =>
    simp only [State.step, State.updY] at h
    split at h
    · cases h
      exact wellAlloc_invalidateAll Stage.Dynamics hs
    · cases h
  | setTime v =>
    simp only [State.step, State.setTime, State.updTime] at h
    split at h
    · exact Except.noConfusion h
    · rename_i s₁ heq
      cases h
      split at heq
      · cases heq
        exact fun x hx => wellAlloc_invalidateAll Stage.Time hs x hx
      · exact Except.noConfusion heq
  | setQ v =>
    simp only [State.step, State.setQ, State.updQ] at h
    split at h
    · split at h
      · exact Except.noConfusion h
      · rename_i s₁ heq
        cases h
        split at heq
        · cases heq
          exact fun x hx => wellAlloc_invalidateAll Stage.Position hs x hx
        · exact Except.noConfusion heq
    · exact Except.noConfusion h
  | setU v =>
    simp only [State.step, State.setU, State.updU] at h
    split at h
    · split at h
      · exact Except.noConfusion h
      · rename_i s₁ heq
        cases h
        split at heq
        · cases heq
          exact fun x hx => wellAlloc_invalidateAll Stage.Velocity hs x hx
        · exact Except.noConfusion heq
    · exact Except.noConfusion h
  | setZ v =>
    simp only [State.step, State.setZ, State.updZ] at h
    split at h
    · split at h
      · exact Except.noConfusion h
      · rename_i s₁ heq
        cases h
        split at heq
        · cases heq
          exact fun x hx => wellAlloc_invalidateAll Stage.Dynamics hs x hx
        · exact Except.noConfusion heq
    · exact Except.noConfusion h
  | setY v =>
    simp only [State.step, State.setY, State.updY] at h
    split at h
    · split at h
      · exact Except.noConfusion h
      · rename_i s₁ heq
        cases h
        split at heq
        · cases heq
          exact fun x hx => wellAlloc_invalidateAll Stage.Dynamics hs x hx
        · exact Except.noConfusion heq
    · exact Except.noConfusion h

theorem filter_stage_getElem?_none {α : Type _} (f : α → Stage) (ns : Stage)
    {l : List α} (hmono : l.Pairwise (fun a b => f a ≤ f b)) {k : Nat} {a : α}
    (hk : l[k]? = some a) (ha : ns ≤ f a) :
    (l.filter (fun x => decide (f x < ns)))[k]? = none := by
  have hklt : k < l.length := (List.getElem?_eq_some.mp hk).1
  have hget : l.get ⟨k, hklt⟩ = a := by
    rw [List.get_eq_getElem]
    exact (List.getElem?_eq_some.mp hk).2
  apply List.getElem?_eq_none
  have hdropnil : (l.drop k).filter (fun x => decide (f x < ns)) = [] := by
    rw [List.filter_eq_nil_iff]
    intro x hx
    rcases List.mem_iff_getElem?.mp hx with ⟨j, hj⟩
    rw [List.getElem?_drop] at hj
    have hle : f a ≤ f x := by
      cases j with
      | zero =>
        rw [Nat.add_zero, hk, Option.some.injEq] at hj
        rw [hj]
        exact Stage.le_refl _
      | succ j =>
        have hjlt : k + (j + 1) < l.length := (List.getElem?_eq_some.mp hj).1
        have hgetx : l.get ⟨k + (j + 1), hjlt⟩ = x := by
          rw [List.get_eq_getElem]
          exact (List.getElem?_eq_some.mp hj).2
        have hp := List.pairwise_iff_get.mp hmono ⟨k, hklt⟩ ⟨k + (j + 1), hjlt⟩
          (by exact Nat.lt_add_of_pos_right (Nat.succ_pos j))
        rw [hget, hgetx] at hp
        exact hp
    intro hlt
    have hlt2 : (f x).toNat < (f a).toNat :=
      Nat.lt_of_lt_of_le (of_decide_eq_true hlt) ha
    exact Nat.lt_irrefl _ (Nat.lt_of_lt_of_le hlt2 hle)
  calc (l.filter (fun x => decide (f x < ns))).length
      = ((l.take k ++ l.drop k).filter (fun x => decide (f x < ns))).length := by
        rw [List.take_append_drop]
    _ = ((l.take k).filter (fun x => decide (f x < ns))).length +
        ((l.drop k).filter (fun x => decide (f x < ns))).length := by
        rw [List.filter_append, List.length_append]
    _ = ((l.take k).filter (fun x => decide (f x < ns))).length := by
        rw [hdropnil, List.length_nil, Nat.add_zero]
    _ ≤ (l.take k).length := List.length_filter_le _ _
    _ ≤ k := by
        rw [List.length_take]
        exact Nat.min_le_left _ _

/-- A one-subsystem state fully at `Model` stage. -/
def demoM : State :=
  { t := 0, currentSystemStage := Stage.Model
    subsystems := [{ Subsystem.fresh "m" "1" with stage := Stage.Model }]
    y := [], nq := 0, nu := 0, nz := 0 }

/-- Counterexample to claim C7 as stated: in a `State` at `Model` stage
(globally and in its subsystem), `allocateDiscreteVariable` fails with a
stage violation — discrete variables can be allocated only at `Empty` or
`Topology` — even though `allocateCacheEntry` still succeeds there. -/
theorem claimC7_counterexample :
    demoM.getSystemStage = Stage.Model ∧
    demoM.getSubsystemStage 0 = .ok Stage.Model ∧
    demoM.allocateDiscreteVariable 0 Stage.Velocity 5 =
      .error .stageViolation ∧
    (demoM.allocateCacheEntry 0 Stage.Position Stage.Position 5).isOk = true :=
  ⟨rfl, rfl, rfl, rfl⟩

/-- Claim C7 (amended): `allocateDiscreteVariable` succeeds exactly while
the subsystem is at `Empty` or `Topology`; `allocateCacheEntry` succeeds
exactly while it is at `Empty`, `Topology`, or `Model`; recorded
allocation stages always lie in those ranges; and a resource is
forgotten — subsequent access fails — when the state is invalidated back
to or below its recorded allocation stage. -/
theorem claimC7_allocation_lifecycle :
    (∀ (s : State) (i : Nat) (ss : Subsystem) (inv : Stage) (v : AV),
      s.subsystems[i]? = some ss →
      ((s.allocateDiscreteVariable i inv v).isOk = true ↔
        ss.stage = Stage.Empty ∨ ss.stage = Stage.Topology)) ∧
    (∀ (s : State) (i : Nat) (ss : Subsystem) (e l : Stage) (v : AV),
      s.subsystems[i]? = some ss →
      ((s.allocateCacheEntry i e l v).isOk = true ↔
        ss.stage = Stage.Empty ∨ ss.stage = Stage.Topology ∨
          ss.stage = Stage.Model)) ∧
    (WellAllocated State.init ∧
      ∀ (s : State) (op : Op) (s' : State), WellAllocated s →
        s.step op = .ok s' → WellAllocated s') ∧
    (∀ (s : State) (i dvi : Nat) (g : Stage), WellAllocated s →
      s.getDiscreteVarAllocationStage i dvi = .ok g →
      g = Stage.Empty ∨ g = Stage.Topology) ∧
    (∀ (s : State) (i cx : Nat) (g : Stage), WellAllocated s →
      s.getCacheEntryAllocationStage i cx = .ok g →
      g = Stage.Empty ∨ g = Stage.Topology ∨ g = Stage.Model) ∧
    (∀ (s : State) (i dvi : Nat) (ss : Subsystem) (dv : DiscreteVar)
        (g : Stage),
      s.subsystems[i]? = some ss →
      ss.discrete.Pairwise (fun a b => a.allocationStage ≤ b.allocationStage) →
      ss.discrete[dvi]? = some dv → g ≤ ss.stage →
      Stage.prev g ≤ dv.allocationStage →
      (s.invalidateAll g).getDiscreteVariable i dvi =
        .error .indexOutOfRange) ∧
    (∀ (s : State) (i cx : Nat) (ss : Subsystem) (ce : CacheEntry)
        (g : Stage),
      s.subsystems[i]? = some ss →
      ss.cache.Pairwise (fun a b => a.allocationStage ≤ b.allocationStage) →
      ss.cache[cx]? = some ce → g ≤ ss.stage →
      Stage.prev g ≤ ce.allocationStage →
      (s.invalidateAll g).getCacheEntry i cx = .error .indexOutOfRange) := by
  refine ⟨?_, ?_, ⟨fun ss hss => absurd hss (List.not_mem_nil ss),
    fun s op s' hw h => wellAlloc_step hw h⟩, ?_, ?_, ?_, ?_⟩
  · intro s i ss inv v hss
    have hiff : (s.allocateDiscreteVariable i inv v).isOk = true ↔
        ss.stage < Stage.Model := by
      by_cases hlt : ss.stage < Stage.Model
      · simp only [State.allocateDiscreteVariable, State.withSub, hss,
          if_pos hlt]
        simp [Except.isOk, Except.toBool, hlt]
      · simp only [State.allocateDiscreteVariable, State.withSub, hss,
          if_neg hlt]
        simp [Except.isOk, Except.toBool, hlt]
    exact hiff.trans (Stage.lt_model_iff ss.stage)
  · intro s i ss e l v hss
    have hiff : (s.allocateCacheEntry i e l v).isOk = true ↔
        ss.stage < Stage.Instance := by
      by_cases hlt : ss.stage < Stage.Instance
      · simp only [State.allocateCacheEntry, State.withSub, hss, if_pos hlt]
        simp [Except.isOk, Except.toBool, hlt]
      · simp only [State.allocateCacheEntry, State.withSub, hss, if_neg hlt]
        simp [Except.isOk, Except.toBool, hlt]
    exact hiff.trans (Stage.lt_instance_iff ss.stage)
  · intro s i dvi g hw h
    cases hss : s.subsystems[i]? with
    | none => simp [State.getDiscreteVarAllocationStage, hss] at h
    | some ss =>
      cases hdv : ss.discrete[dvi]? with
      | none => simp [State.getDiscreteVarAllocationStage, hss, hdv] at h
      | some dv =>
        simp only [State.getDiscreteVarAllocationStage, hss, hdv,
          Except.ok.injEq] at h
        subst h
        exact (Stage.lt_model_iff _).mp
          ((hw ss (List.getElem?_mem hss)).1 dv (List.getElem?_mem hdv))
  · intro s i cx g hw h
    cases hss : s.subsystems[i]? with
    | none => simp [State.getCacheEntryAllocationStage, hss] at h
    | some ss =>
      cases hce : ss.cache[cx]? with
      | none => simp [State.getCacheEntryAllocationStage, hss, hce] at h
      | some ce =>
        simp only [State.getCacheEntryAllocationStage, hss, hce,
          Except.ok.injEq] at h
        subst h
        exact (Stage.lt_instance_iff _).mp
          ((hw ss (List.getElem?_mem hss)).2 ce (List.getElem?_mem hce))
  · intro s i dvi ss dv g hss hmono hdv hgle hforget
    have hsubI : (s.invalidateAll g).subsystems[i]? =
        some (ss.invalidateTo g) := by
      rw [State.invalidateAll_subsystems, List.getElem?_map, hss]
      rfl
    have hnone : (ss.invalidateTo g).discrete[dvi]? = none := by
      rw [Subsystem.invalidateTo, if_pos hgle]
      exact filter_stage_getElem?_none (fun d => d.allocationStage)
        (Stage.prev g) hmono hdv hforget
    simp [State.getDiscreteVariable, hsubI, hnone]
  · intro s i cx ss ce g hss hmono hce hgle hforget
    have hsubI : (s.invalidateAll g).subsystems[i]? =
        some (ss.invalidateTo g) := by
      rw [State.invalidateAll_subsystems, List.getElem?_map, hss]
      rfl
    have hnone : (ss.invalidateTo g).cache[cx]? = none := by
      rw [Subsystem.invalidateTo, if_pos hgle]
      show ((ss.cache.filter _).map _)[cx]? = none
      rw [List.getElem?_map,
        filter_stage_getElem?_none (fun c => c.allocationStage)
          (Stage.prev g) hmono hce hforget]
      rfl
    simp [State.getCacheEntry, hsubI, hnone]

/-- A discrete variable allocated at `Topology`. -/
def demoFVar : DiscreteVar :=
  { allocationStage := Stage.Topology, invalidates := Stage.Velocity
    value := 3, lastUpdateTime := 0, autoUpdate := none }

/-- A state at `Model` whose subsystem owns `demoFVar`. -/
def demoF : State :=
  { t := 0, currentSystemStage := Stage.Model
    subsystems := [{ Subsystem.fresh "f" "1" with
      stage := Stage.Model
      discrete := [demoFVar] }]
    y := [], nq := 0, nu := 0, nz := 0 }

theorem claimC7_witness :
    (demo1.allocateDiscreteVariable 0 Stage.Velocity 5).isOk = true ∧
    (demoM.allocateDiscreteVariable 0 Stage.Velocity 5).isOk = false ∧
    (demoM.allocateCacheEntry 0 Stage.Position Stage.Position 5).isOk = true ∧
    (demoF.invalidateAll Stage.Model).getDiscreteVariable 0 0 =
      .error .indexOutOfRange := by
  refine ⟨?_, ?_, ?_, ?_⟩
  · exact (claimC7_allocation_lifecycle.1 demo1 0 (Subsystem.fresh "demo" "1")
      Stage.Velocity 5 rfl).mpr (Or.inl rfl)
  · cases hv : (demoM.allocateDiscreteVariable 0 Stage.Velocity 5).isOk with
    | false => rfl
    | true =>
      exact absurd ((claimC7_allocation_lifecycle.1 demoM 0
        { Subsystem.fresh "m" "1" with stage := Stage.Model }
        Stage.Velocity 5 rfl).mp hv) (by decide)
  · exact (claimC7_allocation_lifecycle.2.1 demoM 0
      { Subsystem.fresh "m" "1" with stage := Stage.Model }
      Stage.Position Stage.Position 5 rfl).mpr (Or.inr (Or.inr rfl))
  · exact claimC7_allocation_lifecycle.2.2.2.2.2.1 demoF 0 0
      { Subsystem.fresh "f" "1" with
        stage := Stage.Model
        discrete := [demoFVar] }
      demoFVar Stage.Model rfl (by simp) rfl (by decide) (by decide)

end SimTK
